import Mathlib

/-!
caddy-git: the `Endpoint` request handler (`pkg/service/endpoint.go`).

A shallow embedding of `Endpoint.ServeHTTP`, `Endpoint.respondHTTP` and
`Endpoint.Provision`.

* Go strings are Lean `String`s (valid UTF-8 text); equality of strings is
  equality of their bytes.
* The logger, the response writer and `repo.update()` are collaborators of the
  handler.  A run of the handler is recorded as the ordered list of calls it
  makes on them (`Event`), together with the way the call ends (`Exit`).
* `manager` is a package-level variable of the Go package; here it is an
  explicit argument.
* The Go standard library functions the handler calls (`http.Header.Get`,
  `json.Marshal`, the code check of `WriteHeader`) are modelled after the Go 1.22
  standard library.
-/

namespace CaddyGit

/-! ## Data model -/

/-- Modelled from the spec: the type of one entry of `config.webhooks`, declared
outside `endpoint.go`; the handler reads its fields `Header` and `Secret`. -/
structure WebhookConfig where
  Header : String
  Secret : String
  deriving DecidableEq, Repr

/-- Modelled from the spec: the type of `repo.Config`, declared outside
`endpoint.go`; the handler reads `Name` and `Webhooks`. -/
structure RepositoryConfig where
  Name : String
  Webhooks : List WebhookConfig
  deriving DecidableEq, Repr

/-- Modelled from the spec: the `Repository` type, declared outside
`endpoint.go`.  The body of `update()` is not part of the handler; `update`
is the value a call of `repo.update()` returns: `none` for a nil error,
`some e` for an error whose text is `e`. -/
structure Repository where
  Config : RepositoryConfig
  update : Option String
  deriving DecidableEq, Repr

/-- Modelled from the spec: the registry `manager`, declared outside
`endpoint.go`; `repos` is the Go map from repository names to repositories,
kept as an association list read with `List.lookup`. -/
structure Manager where
  repos : List (String × Repository)
  deriving DecidableEq, Repr

/-- A `*zap.Logger` that is not nil. -/
structure Logger where
  id : Nat
  deriving DecidableEq, Repr

/-- The `Endpoint` struct.  `mu` is true when the mutex is held, `logger` is
`none` for a nil pointer, `startedAt` is a timestamp. -/
structure Endpoint where
  mu : Bool
  Name : String
  RepositoryName : String
  logger : Option Logger
  startedAt : Nat
  deriving DecidableEq, Repr

/-- An `*http.Request`, reduced to its `Header` field (`map[string][]string`),
kept as an association list read with `List.lookup`. -/
structure Request where
  Header : List (String × List String)
  deriving DecidableEq, Repr

/-- The dynamic values (empty interface) of a response map that this development
distinguishes.  `unsupported` stands for a value `json.Marshal` refuses, such
as a channel or a function. -/
inductive Value
  | int (n : Int)
  | str (s : String)
  | bool (b : Bool)
  | null
  | unsupported
  deriving DecidableEq, Repr

/-- A Go `map[string]interface{}`: the nil map, or a map made with `make`, whose
entries are kept as an association list with pairwise different keys. -/
inductive GoMap
  | nil
  | made (entries : List (String × Value))
  deriving DecidableEq, Repr

/-- Levels of the zap logger used by the handler. -/
inductive Level
  | debug
  | info
  | warn
  deriving DecidableEq, Repr

/-- One call the handler makes on a collaborator. -/
inductive Event
  /-- A call of `m.logger.Debug`, `Info` or `Warn` with its message and its
  fields, each field a key and the text of its value. -/
  | log (level : Level) (msg : String) (fields : List (String × String))
  /-- A call of `repo.update()` on the repository with this `Config.Name`. -/
  | update (repo : String)
  /-- A call of `w.WriteHeader` that the writer accepts (a call with a code
  outside 100..999 panics and is not recorded). -/
  | writeHeader (code : Int)
  /-- A call of `w.Write`; the empty string also stands for a nil slice. -/
  | write (b : String)
  deriving DecidableEq, Repr

/-- How a call ends: it returns an `error` (`none` is nil), or it panics. -/
inductive Exit
  | returned (err : Option String)
  | panicked
  deriving DecidableEq, Repr

/-- A run of a handler method: the calls made, in order, and the way it ends. -/
structure Run where
  trace : List Event
  exit : Exit
  deriving DecidableEq, Repr

/-- Sequencing: the calls `pre` were made before the run `r` started. -/
def Run.after (pre : List Event) (r : Run) : Run :=
  { trace := pre ++ r.trace, exit := r.exit }

def http.StatusOK : Int := 200
def http.StatusUnauthorized : Int := 401
def http.StatusInternalServerError : Int := 500

/-! ## `http.Header.Get` (Go standard library) -/

/-- The token bytes of `net/textproto` (`validHeaderFieldByte`): the digits, the
letters and fifteen punctuation characters, listed by their codes. -/
def validHeaderFieldByte (c : Char) : Bool :=
  let n := c.toNat
  (48 ≤ n && n ≤ 57) || (97 ≤ n && n ≤ 122) || (65 ≤ n && n ≤ 90) ||
    n ∈ [33, 35, 36, 37, 38, 39, 42, 43, 45, 46, 94, 95, 96, 124, 126]

/-- The rewriting loop of `canonicalMIMEHeaderKey`: upper case for the first
letter and for a letter after a dash, lower case elsewhere. -/
def canonicalizeLoop : Bool → List Char → List Char
  | _, [] => []
  | upper, c :: cs =>
    let c1 :=
      if upper && 97 ≤ c.toNat && c.toNat ≤ 122 then Char.ofNat (c.toNat - 32)
      else if !upper && 65 ≤ c.toNat && c.toNat ≤ 90 then Char.ofNat (c.toNat + 32)
      else c
    c1 :: canonicalizeLoop (c1.toNat = 45) cs

/-- `textproto.CanonicalMIMEHeaderKey`: a key holding a byte that is not a
token byte (a space included) is returned unchanged; any other key is put in
canonical form. -/
def CanonicalMIMEHeaderKey (s : String) : String :=
  if s.data.all validHeaderFieldByte then String.mk (canonicalizeLoop true s.data) else s

/-- `http.Header.Get`: the first value stored under the canonical form of
`key`, and the empty string when there is none. -/
def Header.Get (h : List (String × List String)) (key : String) : String :=
  match h.lookup (CanonicalMIMEHeaderKey key) with
  | some (v :: _) => v
  | _ => ""

/-! ## `json.Marshal` on a `map[string]interface{}` (Go standard library) -/

/-- The digits used in hexadecimal escapes. -/
def hexDigit (n : Nat) : Char :=
  "0123456789abcdef".data.getD n '0'

/-- The backslash character. -/
def backslash : Char := Char.ofNat 92

/-- The double quote character. -/
def doubleQuote : Char := Char.ofNat 34

/-- The encoding of one character inside a JSON string, with HTML escaping on
(`json.Marshal`): a backslash before a backslash or a double quote, the short
escapes of backspace, form feed, line feed, carriage return and tab, a
`u00XX` escape for the other control characters and for `<`, `>`, `&`, a
`u202X` escape for the line and paragraph separators. -/
def escapeChar (c : Char) : List Char :=
  let n := c.toNat
  if n = 92 ∨ n = 34 then [backslash, c]
  else if n = 8 then [backslash, 'b']
  else if n = 12 then [backslash, 'f']
  else if n = 10 then [backslash, 'n']
  else if n = 13 then [backslash, 'r']
  else if n = 9 then [backslash, 't']
  else if n < 32 ∨ n = 60 ∨ n = 62 ∨ n = 38 then
    [backslash, 'u', '0', '0', hexDigit (n / 16), hexDigit (n % 16)]
  else if n = 8232 ∨ n = 8233 then
    [backslash, 'u', '2', '0', '2', hexDigit (n % 16)]
  else [c]

/-- A JSON string literal. -/
def encodeString (s : String) : String :=
  String.mk (doubleQuote :: (s.data.flatMap escapeChar ++ [doubleQuote]))

/-- The JSON text of a value, or the error of `json.Marshal`. -/
def encodeValue : Value → Except String String
  | .int n => .ok (toString n)
  | .str s => .ok (encodeString s)
  | .bool b => .ok (if b then "true" else "false")
  | .null => .ok "null"
  | .unsupported => .error "json: unsupported type"

/-- The order in which `json.Marshal` writes the keys of a map: the order of
the keys as byte strings. -/
def keyLE (a b : String × Value) : Prop := ¬ b.1.data < a.1.data

instance : DecidableRel keyLE := fun a b => by unfold keyLE; exact inferInstance

/-- The members of a JSON object, `"key":value` joined by commas. -/
def encodeMembers : List (String × Value) → Except String String
  | [] => .ok ""
  | (k, v) :: rest =>
    match encodeValue v with
    | .error e => .error e
    | .ok sv =>
      match encodeMembers rest with
      | .error e => .error e
      | .ok srest =>
        .ok (encodeString k ++ ":" ++ sv ++ (if rest.isEmpty then "" else ",") ++ srest)

/-- `json.Marshal(data)` for a `map[string]interface{}`: `null` for the nil map,
else the object with its keys in sorted order; an error when a value cannot be
encoded. -/
def json.Marshal : GoMap → Except String String
  | .nil => .ok "null"
  | .made entries =>
    match encodeMembers (entries.insertionSort keyLE) with
    | .error e => .error e
    | .ok s => .ok ("\x7b" ++ s ++ "\x7d")

/-! ## Go map operations -/

/-- The map index expression `data[key]` with its `exists` flag. -/
def GoMap.get : GoMap → String → Option Value
  | .nil, _ => none
  | .made entries, key => entries.lookup key

/-- The assignment `data[key] = v`; assignment to the nil map panics (`none`). -/
def GoMap.set : GoMap → String → Value → Option GoMap
  | .nil, _, _ => none
  | .made entries, key, v => some (.made ((entries.filter fun e => e.1 ≠ key) ++ [(key, v)]))

/-- The statement `data[key] = v` followed by the rest `k` of the function. -/
def assign (data : GoMap) (key : String) (v : Value) (k : GoMap → Run) : Run :=
  match data.set key v with
  | none => { trace := [], exit := .panicked }
  | some data1 => k data1

/-! ## The handler -/

/-- A call `m.logger.Debug/Info/Warn(msg, fields...)` followed by the rest `k`
of the function: a nil logger panics, any other logger records the call. -/
def Endpoint.logCall (m : Endpoint) (level : Level) (msg : String)
    (fields : List (String × String)) (k : Run) : Run :=
  match m.logger with
  | none => { trace := [], exit := .panicked }
  | some _ => k.after [.log level msg fields]

/-- A call `w.WriteHeader(code)` followed by the rest `k` of the function.  The
response writers of the Go standard library (the server's writer,
`httptest.ResponseRecorder`) check the code first (`checkWriteHeaderCode`) and
panic on a code below 100 or above 999; any other code is accepted and the call
is recorded. -/
def writeHeaderThen (code : Int) (k : Run) : Run :=
  if 100 ≤ code ∧ code ≤ 999 then k.after [.writeHeader code]
  else { trace := [], exit := .panicked }

/-- `Endpoint.respondHTTP`: the marshalling error is dropped (`b` is then nil),
the status is the `status_code` entry of `data` when there is one (the type
assertion `code.(int)` panics on a value that is not an `int`) and 500
otherwise, then `b` is written; the method returns nil. -/
def Endpoint.respondHTTP (_m : Endpoint) (data : GoMap) : Run :=
  let b : String :=
    match json.Marshal data with
    | .ok b => b
    | .error _ => ""
  match data.get "status_code" with
  | some (.int code) =>
    writeHeaderThen code { trace := [.write b], exit := .returned none }
  | some _ => { trace := [], exit := .panicked }
  | none =>
    writeHeaderThen http.StatusInternalServerError
      { trace := [.write b], exit := .returned none }

/-- How the loop over `repo.Config.Webhooks` ends: by the `return` inside the
loop, at the rule `webhook`, or by exhausting the rules with the flag
`authorized`. -/
inductive ScanExit
  | mismatch (webhook : WebhookConfig)
  | done (authorized : Bool)
  deriving DecidableEq, Repr

/-- The loop `for _, webhook := range repo.Config.Webhooks`, started with the
current value of `authorized`. -/
def scanWebhooks (r : Request) : List WebhookConfig → Bool → ScanExit
  | [], authorized => .done authorized
  | webhook :: rest, authorized =>
    let hdr := Header.Get r.Header webhook.Header
    if hdr = "" then scanWebhooks r rest authorized
    else if hdr ≠ webhook.Secret then .mismatch webhook
    else scanWebhooks r rest true

/-- The tail of `ServeHTTP` from `repo.update()` on. -/
def Endpoint.dispatch (m : Endpoint) (repo : Repository) (resp : GoMap) : Run :=
  Run.after [.update repo.Config.Name] <|
    match repo.update with
    | some err =>
      m.logCall .warn "failed updating repo" [("repo_name", repo.Config.Name), ("error", err)] <|
        assign resp "status_code" (.int http.StatusInternalServerError) fun resp =>
          m.respondHTTP resp
    | none =>
      assign resp "status_code" (.int http.StatusOK) fun resp =>
        m.respondHTTP resp

/-- `Endpoint.ServeHTTP`, with the package variable `manager` as an argument. -/
def Endpoint.ServeHTTP (m : Endpoint) (manager : Manager) (r : Request) : Run :=
  m.logCall .debug "received update git repo request" [("repo_name", m.RepositoryName)] <|
    let resp := GoMap.made []
    match manager.repos.lookup m.RepositoryName with
    | none =>
      assign resp "status_code" (.int http.StatusInternalServerError) fun resp =>
        m.logCall .warn "repo not found" [("repo_name", m.RepositoryName)] <|
          m.respondHTTP resp
    | some repo =>
      if repo.Config.Webhooks.length > 0 then
        match scanWebhooks r repo.Config.Webhooks false with
        | .mismatch webhook =>
          assign resp "status_code" (.int http.StatusUnauthorized) fun resp =>
            m.logCall .warn "webhook authentication failed"
              [("repo_name", repo.Config.Name), ("webhook_header", webhook.Header),
                ("error", "auth header value mismatch")] <|
              m.respondHTTP resp
        | .done authorized =>
          if !authorized then
            assign resp "status_code" (.int http.StatusUnauthorized) fun resp =>
              m.logCall .warn "webhook authentication failed"
                [("repo_name", repo.Config.Name), ("error", "auth header not found")] <|
                m.respondHTTP resp
          else m.dispatch repo resp
      else m.dispatch repo resp

/-! ## Observations on a run -/

/-- The status codes written with `w.WriteHeader`, in order. -/
def Run.statuses (run : Run) : List Int :=
  run.trace.filterMap fun e => match e with
    | .writeHeader c => some c
    | _ => none

/-- The bodies passed to `w.Write`, in order. -/
def Run.bodies (run : Run) : List String :=
  run.trace.filterMap fun e => match e with
    | .write b => some b
    | _ => none

/-- The repositories on which `update()` was called, in order. -/
def Run.updates (run : Run) : List String :=
  run.trace.filterMap fun e => match e with
    | .update n => some n
    | _ => none

/-- The log entries of the run, in order. -/
def Run.logs (run : Run) : List Event :=
  run.trace.filter fun e => match e with
    | .log _ _ _ => true
    | _ => false

/-- The rule's header has a non-empty value on the request. -/
def presented (r : Request) (webhook : WebhookConfig) : Prop :=
  Header.Get r.Header webhook.Header ≠ ""

instance (r : Request) (webhook : WebhookConfig) : Decidable (presented r webhook) := by
  unfold presented; exact inferInstance

/-! ## Sample configurations -/

/-- A provisioned endpoint for the repository `name`, with its logger set. -/
def sampleEndpoint (name : String) : Endpoint :=
  { mu := false, Name := "git-" ++ name, RepositoryName := name, logger := some { id := 0 },
    startedAt := 0 }

/-- A repository without webhook rules whose update succeeds. -/
def alpha : Repository :=
  { Config := { Name := "alpha", Webhooks := [] }, update := none }

/-- A repository with one webhook rule whose update succeeds. -/
def beta : Repository :=
  { Config := { Name := "beta", Webhooks := [{ Header := "X-Hub-Sig", Secret := "s3cr3t" }] },
    update := none }

/-- A repository with two webhook rules whose update fails. -/
def gamma : Repository :=
  { Config :=
      { Name := "gamma"
        Webhooks :=
          [{ Header := "X-Hub-Sig", Secret := "s3cr3t" }, { Header := "X-Token", Secret := "t0k3n" }] }
    update := some "exit status 128" }

/-- A registry holding `alpha`, `beta` and `gamma`. -/
def sampleManager : Manager :=
  { repos := [("alpha", alpha), ("beta", beta), ("gamma", gamma)] }

/-- A request carrying `X-Hub-Sig: s3cr3t`. -/
def goodRequest : Request :=
  { Header := [("X-Hub-Sig", ["s3cr3t"])] }

/-- A request carrying `X-Hub-Sig: s3cr3t` and `X-Token: wrong`. -/
def mixedRequest : Request :=
  { Header := [("X-Hub-Sig", ["s3cr3t"]), ("X-Token", ["wrong"])] }

/-- A request carrying no webhook header. -/
def bareRequest : Request :=
  { Header := [("User-Agent", ["curl"])] }

/-- A response map whose `status_code` is 200 and which holds a value that
`json.Marshal` refuses. -/
def unencodable : GoMap :=
  .made [("status_code", .int 200), ("hook", .unsupported)]

/-- A response map whose `status_code` is the integer 0. -/
def zeroStatus : GoMap :=
  .made [("status_code", .int 0)]

/-- A response map whose `status_code` is not an `int` and cannot be encoded. -/
def unencodableStatus : GoMap :=
  .made [("status_code", .unsupported)]

/-- A response map without the key `status_code`. -/
def messageOnly : GoMap :=
  .made [("message", .str "ok")]

/-- An endpoint for `beta` as configured, before `Provision`. -/
def unprovisioned : Endpoint :=
  { mu := false, Name := "", RepositoryName := "beta", logger := some { id := 0 }, startedAt := 0 }

/-- The repository `gamma` with its two rules in the other order. -/
def gammaSwapped : Repository :=
  { Config :=
      { Name := "gamma"
        Webhooks :=
          [{ Header := "X-Token", Secret := "t0k3n" }, { Header := "X-Hub-Sig", Secret := "s3cr3t" }] }
    update := some "exit status 128" }

/-- A registry holding `gammaSwapped` under the name `gamma`. -/
def swappedManager : Manager :=
  { repos := [("gamma", gammaSwapped)] }

/-- A repository whose only rule has an empty secret. -/
def delta : Repository :=
  { Config := { Name := "delta", Webhooks := [{ Header := "X-Hub-Sig", Secret := "" }] },
    update := none }

/-- A registry holding `delta`. -/
def deltaManager : Manager :=
  { repos := [("delta", delta)] }

/-- The repository `beta` with the header name of its rule in small letters. -/
def betaSmall : Repository :=
  { Config := { Name := "beta", Webhooks := [{ Header := "x-hub-sig", Secret := "s3cr3t" }] },
    update := none }

/-- A registry holding `betaSmall` under the name `beta`. -/
def smallManager : Manager :=
  { repos := [("beta", betaSmall)] }

/-! ## The call of `respondHTTP` that ends `ServeHTTP` -/

/-- The call `m.respondHTTP(ctx, w, r, resp)` a run of `ServeHTTP` ends with: the
calls made on the collaborators before it, and the map `resp` passed to it. -/
structure RespondCall where
  before : List Event
  data : GoMap
  deriving DecidableEq, Repr

/-- The statement `resp[key] = v` followed by the call of `respondHTTP`, reached
after the calls `before`; `none` when the assignment panics. -/
def respondWith (before : List Event) (resp : GoMap) (key : String) (v : Value) :
    Option RespondCall :=
  match resp.set key v with
  | none => none
  | some resp1 => some { before := before, data := resp1 }

/-- `Endpoint.ServeHTTP` up to its `return m.respondHTTP(ctx, w, r, resp)`: the
same statements as `Endpoint.ServeHTTP`, stopped at the call of `respondHTTP`;
`none` when the run panics before that call (nil logger). -/
def Endpoint.respondCall (m : Endpoint) (manager : Manager) (r : Request) :
    Option RespondCall :=
  match m.logger with
  | none => none
  | some _ =>
    let received : Event :=
      .log .debug "received update git repo request" [("repo_name", m.RepositoryName)]
    let resp := GoMap.made []
    match manager.repos.lookup m.RepositoryName with
    | none =>
      respondWith [received, .log .warn "repo not found" [("repo_name", m.RepositoryName)]]
        resp "status_code" (.int http.StatusInternalServerError)
    | some repo =>
      let dispatch : Option RespondCall :=
        match repo.update with
        | some err =>
          respondWith
            [received, .update repo.Config.Name,
              .log .warn "failed updating repo"
                [("repo_name", repo.Config.Name), ("error", err)]]
            resp "status_code" (.int http.StatusInternalServerError)
        | none =>
          respondWith [received, .update repo.Config.Name] resp "status_code"
            (.int http.StatusOK)
      if repo.Config.Webhooks.length > 0 then
        match scanWebhooks r repo.Config.Webhooks false with
        | .mismatch webhook =>
          respondWith
            [received,
              .log .warn "webhook authentication failed"
                [("repo_name", repo.Config.Name), ("webhook_header", webhook.Header),
                  ("error", "auth header value mismatch")]]
            resp "status_code" (.int http.StatusUnauthorized)
        | .done authorized =>
          if !authorized then
            respondWith
              [received,
                .log .warn "webhook authentication failed"
                  [("repo_name", repo.Config.Name), ("error", "auth header not found")]]
              resp "status_code" (.int http.StatusUnauthorized)
          else dispatch
      else dispatch

/-! ## `Endpoint.Provision` -/

/-- `Endpoint.Provision`, with the value of `time.Now().UTC()` as the argument
`now`: the endpoint after the two assignments, and the run (the call of
`m.logger.Info` and the nil error returned). -/
def Endpoint.Provision (m : Endpoint) (now : Nat) : Endpoint × Run :=
  let m1 : Endpoint := { m with startedAt := now }
  let m2 : Endpoint := { m1 with Name := "git-" ++ m1.RepositoryName }
  (m2, m2.logCall .info "provisioned plugin instance"
    [("instance_name", m2.Name), ("started_at", toString m2.startedAt)]
    { trace := [], exit := .returned none })

/-! ## Letter case of header names -/

/-- Two characters are the same letter: they are equal, or one is an ASCII
capital letter and the other the matching small letter. -/
def sameLetter (a b : Char) : Prop :=
  a = b ∨ (65 ≤ a.toNat ∧ a.toNat ≤ 90 ∧ b.toNat = a.toNat + 32) ∨
    (65 ≤ b.toNat ∧ b.toNat ≤ 90 ∧ a.toNat = b.toNat + 32)

instance (a b : Char) : Decidable (sameLetter a b) := by
  unfold sameLetter; exact inferInstance

/-- Two header names are the same name up to the case of their letters. -/
def caseVariant (h1 h2 : String) : Prop :=
  List.Forall₂ sameLetter h1.data h2.data

instance (h1 h2 : String) : Decidable (caseVariant h1 h2) := by
  unfold caseVariant; exact inferInstance

/-- Every header key of the request is a valid header field name (token bytes
only), as every key in canonical HTTP form is. -/
def validHeaderKeys (r : Request) : Prop :=
  ∀ kv ∈ r.Header, kv.1.data.all validHeaderFieldByte = true

instance (r : Request) : Decidable (validHeaderKeys r) := by
  unfold validHeaderKeys; exact inferInstance

/-! ## Basic facts on the encoder and the map operations -/

theorem encodeString_status_code : encodeString "status_code" = "\"status_code\"" := by decide

theorem marshal_status (c : Int) :
    json.Marshal (.made [("status_code", .int c)]) =
      .ok ("\x7b\"status_code\":" ++ toString c ++ "\x7d") := by
  simp only [json.Marshal, List.insertionSort, List.orderedInsert, encodeMembers, encodeValue,
    encodeString_status_code, List.isEmpty_nil, if_true]
  congr 1
  apply String.ext
  simp [String.append_assoc]

theorem respondHTTP_status (m : Endpoint) (c : Int) (hlow : 100 ≤ c) (hhigh : c ≤ 999) :
    m.respondHTTP (.made [("status_code", .int c)]) =
      { trace := [.writeHeader c, .write ("\x7b\"status_code\":" ++ toString c ++ "\x7d")],
        exit := .returned none } := by
  simp [Endpoint.respondHTTP, writeHeaderThen, Run.after, marshal_status, GoMap.get,
    List.lookup, hlow, hhigh]

theorem assign_made (key : String) (v : Value) (k : GoMap → Run) :
    assign (.made []) key v k = k (.made [(key, v)]) := by
  simp [assign, GoMap.set]

theorem logCall_some (m : Endpoint) (l : Logger) (h : m.logger = some l) (level : Level)
    (msg : String) (fields : List (String × String)) (k : Run) :
    m.logCall level msg fields k = k.after [.log level msg fields] := by
  simp [Endpoint.logCall, h]

/-! ## The loop over the webhook rules -/

theorem scanWebhooks_done_iff (r : Request) (rules : List WebhookConfig) (a b : Bool) :
    scanWebhooks r rules a = .done b ↔
      (∀ wh ∈ rules, presented r wh → Header.Get r.Header wh.Header = wh.Secret) ∧
        (b = true ↔ a = true ∨ ∃ wh ∈ rules, presented r wh) := by
  induction rules generalizing a with
  | nil => cases a <;> cases b <;> simp [scanWebhooks]
  | cons wh rest ih =>
    unfold scanWebhooks
    by_cases h1 : Header.Get r.Header wh.Header = ""
    · simp only [h1, if_true, ih]
      have hp : ¬ presented r wh := by simp [presented, h1]
      simp [hp]
    · have hp : presented r wh := h1
      by_cases h2 : Header.Get r.Header wh.Header = wh.Secret
      · rw [if_neg h1, if_neg (not_not.mpr h2), ih]
        simp [hp, h2]
      · rw [if_neg h1, if_pos h2]
        simp [hp, h2]

theorem scanWebhooks_mismatch (r : Request) (rules : List WebhookConfig) (a : Bool)
    (wh : WebhookConfig) (h : scanWebhooks r rules a = .mismatch wh) :
    wh ∈ rules ∧ presented r wh ∧ Header.Get r.Header wh.Header ≠ wh.Secret := by
  induction rules generalizing a with
  | nil => simp [scanWebhooks] at h
  | cons w rest ih =>
    unfold scanWebhooks at h
    by_cases h1 : Header.Get r.Header w.Header = ""
    · simp only [h1, if_true] at h
      have := ih a h
      exact ⟨List.mem_cons_of_mem _ this.1, this.2⟩
    · by_cases h2 : Header.Get r.Header w.Header = w.Secret
      · rw [if_neg h1, if_neg (not_not.mpr h2)] at h
        have := ih true h
        exact ⟨List.mem_cons_of_mem _ this.1, this.2⟩
      · rw [if_neg h1, if_pos h2, ScanExit.mismatch.injEq] at h
        subst h
        exact ⟨List.mem_cons_self _ _, h1, h2⟩

/-! ## The runs of the handler, path by path -/

theorem dispatch_ok (m : Endpoint) (repo : Repository) (hu : repo.update = none) :
    m.dispatch repo (.made []) =
      { trace := [.update repo.Config.Name, .writeHeader 200,
          .write "\x7b\"status_code\":200\x7d"],
        exit := .returned none } := by
  simp [Endpoint.dispatch, hu, assign_made, respondHTTP_status, Run.after, http.StatusOK]
  decide

theorem dispatch_err (m : Endpoint) (l : Logger) (hlog : m.logger = some l) (repo : Repository)
    (err : String) (hu : repo.update = some err) :
    m.dispatch repo (.made []) =
      { trace := [.update repo.Config.Name,
          .log .warn "failed updating repo" [("repo_name", repo.Config.Name), ("error", err)],
          .writeHeader 500, .write "\x7b\"status_code\":500\x7d"],
        exit := .returned none } := by
  simp [Endpoint.dispatch, hu, assign_made, respondHTTP_status, Run.after,
    logCall_some m l hlog, http.StatusInternalServerError]
  decide

theorem ServeHTTP_unregistered (m : Endpoint) (l : Logger) (hlog : m.logger = some l)
    (manager : Manager) (r : Request) (hreg : manager.repos.lookup m.RepositoryName = none) :
    m.ServeHTTP manager r =
      { trace := [.log .debug "received update git repo request" [("repo_name", m.RepositoryName)],
          .log .warn "repo not found" [("repo_name", m.RepositoryName)],
          .writeHeader 500, .write "\x7b\"status_code\":500\x7d"],
        exit := .returned none } := by
  simp [Endpoint.ServeHTTP, hreg, assign_made, respondHTTP_status, Run.after,
    logCall_some m l hlog, http.StatusInternalServerError]
  decide

theorem ServeHTTP_open (m : Endpoint) (l : Logger) (hlog : m.logger = some l)
    (manager : Manager) (r : Request) (repo : Repository)
    (hreg : manager.repos.lookup m.RepositoryName = some repo)
    (hrules : repo.Config.Webhooks = []) :
    m.ServeHTTP manager r =
      (m.dispatch repo (.made [])).after
        [.log .debug "received update git repo request" [("repo_name", m.RepositoryName)]] := by
  simp [Endpoint.ServeHTTP, hreg, hrules, logCall_some m l hlog]

theorem ServeHTTP_authorized (m : Endpoint) (l : Logger) (hlog : m.logger = some l)
    (manager : Manager) (r : Request) (repo : Repository)
    (hreg : manager.repos.lookup m.RepositoryName = some repo)
    (hscan : scanWebhooks r repo.Config.Webhooks false = .done true) :
    m.ServeHTTP manager r =
      (m.dispatch repo (.made [])).after
        [.log .debug "received update git repo request" [("repo_name", m.RepositoryName)]] := by
  simp [Endpoint.ServeHTTP, hreg, hscan, logCall_some m l hlog]

theorem ServeHTTP_mismatch (m : Endpoint) (l : Logger) (hlog : m.logger = some l)
    (manager : Manager) (r : Request) (repo : Repository) (wh : WebhookConfig)
    (hreg : manager.repos.lookup m.RepositoryName = some repo)
    (hscan : scanWebhooks r repo.Config.Webhooks false = .mismatch wh) :
    m.ServeHTTP manager r =
      { trace := [.log .debug "received update git repo request" [("repo_name", m.RepositoryName)],
          .log .warn "webhook authentication failed"
            [("repo_name", repo.Config.Name), ("webhook_header", wh.Header),
              ("error", "auth header value mismatch")],
          .writeHeader 401, .write "\x7b\"status_code\":401\x7d"],
        exit := .returned none } := by
  have hne : repo.Config.Webhooks ≠ [] := by
    intro h; rw [h] at hscan; simp [scanWebhooks] at hscan
  simp [Endpoint.ServeHTTP, hreg, hscan, assign_made, respondHTTP_status, Run.after,
    logCall_some m l hlog, http.StatusUnauthorized, List.length_pos, hne]
  decide

theorem ServeHTTP_not_found (m : Endpoint) (l : Logger) (hlog : m.logger = some l)
    (manager : Manager) (r : Request) (repo : Repository)
    (hreg : manager.repos.lookup m.RepositoryName = some repo)
    (hne : repo.Config.Webhooks ≠ [])
    (hscan : scanWebhooks r repo.Config.Webhooks false = .done false) :
    m.ServeHTTP manager r =
      { trace := [.log .debug "received update git repo request" [("repo_name", m.RepositoryName)],
          .log .warn "webhook authentication failed"
            [("repo_name", repo.Config.Name), ("error", "auth header not found")],
          .writeHeader 401, .write "\x7b\"status_code\":401\x7d"],
        exit := .returned none } := by
  simp [Endpoint.ServeHTTP, hreg, hscan, assign_made, respondHTTP_status, Run.after,
    logCall_some m l hlog, http.StatusUnauthorized, List.length_pos, hne]
  decide

/-! ## What a run shows, by the outcome of the webhook check -/

theorem scanWebhooks_authorized_iff (r : Request) (rules : List WebhookConfig) :
    scanWebhooks r rules false = .done true ↔
      (∃ wh ∈ rules, presented r wh) ∧
        ∀ wh ∈ rules, presented r wh → Header.Get r.Header wh.Header = wh.Secret := by
  rw [scanWebhooks_done_iff]
  simp [and_comm]

theorem scanWebhooks_cases (r : Request) (rules : List WebhookConfig) :
    scanWebhooks r rules false = .done true ∨ scanWebhooks r rules false = .done false ∨
      ∃ wh, scanWebhooks r rules false = .mismatch wh := by
  cases h : scanWebhooks r rules false with
  | mismatch wh => exact Or.inr (Or.inr ⟨wh, rfl⟩)
  | done b => cases b <;> simp

theorem observe_dispatch (m : Endpoint) (l : Logger) (hlog : m.logger = some l)
    (repo : Repository) (pre : List (String × String)) :
    ((m.dispatch repo (.made [])).after [.log .debug "received update git repo request" pre]).statuses
        = [if repo.update = none then 200 else 500] ∧
      ((m.dispatch repo (.made [])).after
        [.log .debug "received update git repo request" pre]).updates = [repo.Config.Name] := by
  cases hu : repo.update with
  | none => simp [dispatch_ok m repo hu, Run.after, Run.statuses, Run.updates]
  | some err => simp [dispatch_err m l hlog repo err hu, Run.after, Run.statuses, Run.updates]

theorem observe_accept (m : Endpoint) (l : Logger) (hlog : m.logger = some l)
    (manager : Manager) (r : Request) (repo : Repository)
    (hreg : manager.repos.lookup m.RepositoryName = some repo)
    (hacc : repo.Config.Webhooks = [] ∨ scanWebhooks r repo.Config.Webhooks false = .done true) :
    (m.ServeHTTP manager r).statuses = [if repo.update = none then 200 else 500] ∧
      (m.ServeHTTP manager r).updates = [repo.Config.Name] := by
  rcases hacc with h | h
  · rw [ServeHTTP_open m l hlog manager r repo hreg h]
    exact observe_dispatch m l hlog repo _
  · rw [ServeHTTP_authorized m l hlog manager r repo hreg h]
    exact observe_dispatch m l hlog repo _

theorem observe_reject (m : Endpoint) (l : Logger) (hlog : m.logger = some l)
    (manager : Manager) (r : Request) (repo : Repository)
    (hreg : manager.repos.lookup m.RepositoryName = some repo)
    (hne : repo.Config.Webhooks ≠ [])
    (hrej : scanWebhooks r repo.Config.Webhooks false ≠ .done true) :
    (m.ServeHTTP manager r).statuses = [401] ∧ (m.ServeHTTP manager r).updates = [] := by
  rcases scanWebhooks_cases r repo.Config.Webhooks with h | h | ⟨wh, h⟩
  · exact absurd h hrej
  · simp [ServeHTTP_not_found m l hlog manager r repo hreg hne h, Run.statuses, Run.updates]
  · simp [ServeHTTP_mismatch m l hlog manager r repo wh hreg h, Run.statuses, Run.updates]

theorem ServeHTTP_nil_logger (m : Endpoint) (hlog : m.logger = none) (manager : Manager)
    (r : Request) : m.ServeHTTP manager r = { trace := [], exit := .panicked } := by
  simp [Endpoint.ServeHTTP, Endpoint.logCall, hlog]

theorem bodies_of_statuses (m : Endpoint) (manager : Manager) (r : Request) :
    (m.ServeHTTP manager r).bodies =
      (m.ServeHTTP manager r).statuses.map
        fun c => "\x7b\"status_code\":" ++ toString c ++ "\x7d" := by
  cases hlog : m.logger with
  | none => simp [ServeHTTP_nil_logger m hlog, Run.bodies, Run.statuses]
  | some l =>
    cases hreg : manager.repos.lookup m.RepositoryName with
    | none =>
      simp [ServeHTTP_unregistered m l hlog manager r hreg, Run.bodies, Run.statuses]
      decide
    | some repo =>
      have hd : ((m.dispatch repo (.made [])).after
            [.log .debug "received update git repo request" [("repo_name", m.RepositoryName)]]).bodies =
          ((m.dispatch repo (.made [])).after
            [.log .debug "received update git repo request"
              [("repo_name", m.RepositoryName)]]).statuses.map
            fun c => "\x7b\"status_code\":" ++ toString c ++ "\x7d" := by
        cases hu : repo.update with
        | none =>
          simp [dispatch_ok m repo hu, Run.after, Run.bodies, Run.statuses]
          decide
        | some err =>
          simp [dispatch_err m l hlog repo err hu, Run.after, Run.bodies, Run.statuses]
          decide
      by_cases hrules : repo.Config.Webhooks = []
      · rw [ServeHTTP_open m l hlog manager r repo hreg hrules]
        exact hd
      · rcases scanWebhooks_cases r repo.Config.Webhooks with h | h | ⟨wh, h⟩
        · rw [ServeHTTP_authorized m l hlog manager r repo hreg h]
          exact hd
        · simp [ServeHTTP_not_found m l hlog manager r repo hreg hrules h, Run.bodies,
            Run.statuses]
          decide
        · simp [ServeHTTP_mismatch m l hlog manager r repo wh hreg h, Run.bodies, Run.statuses]
          decide

/-! ## The claims -/

/-- C1: for a registered repository with at least one webhook rule, the request
is accepted (update is invoked and no 401 is written) exactly when some rule's
header has a non-empty value on the request and every rule whose header has a
non-empty value has that value equal to its secret; otherwise the status is 401
and update is not invoked. -/
theorem ServeHTTP_accepts_iff (m : Endpoint) (l : Logger) (manager : Manager) (r : Request)
    (repo : Repository) (hlog : m.logger = some l)
    (hreg : manager.repos.lookup m.RepositoryName = some repo)
    (hrules : repo.Config.Webhooks ≠ []) :
    (((m.ServeHTTP manager r).updates ≠ [] ∧ 401 ∉ (m.ServeHTTP manager r).statuses) ↔
        ((∃ wh ∈ repo.Config.Webhooks, presented r wh) ∧
          ∀ wh ∈ repo.Config.Webhooks, presented r wh →
            Header.Get r.Header wh.Header = wh.Secret)) ∧
      (¬ ((∃ wh ∈ repo.Config.Webhooks, presented r wh) ∧
          ∀ wh ∈ repo.Config.Webhooks, presented r wh →
            Header.Get r.Header wh.Header = wh.Secret) →
        (m.ServeHTTP manager r).statuses = [401] ∧ (m.ServeHTTP manager r).updates = []) := by
  rw [← scanWebhooks_authorized_iff]
  by_cases h : scanWebhooks r repo.Config.Webhooks false = .done true
  · have ho := observe_accept m l hlog manager r repo hreg (Or.inr h)
    refine ⟨⟨fun _ => h, fun _ => ?_⟩, fun hn => absurd h hn⟩
    rw [ho.1, ho.2]
    cases repo.update <;> simp
  · have ho := observe_reject m l hlog manager r repo hreg hrules h
    refine ⟨⟨fun ha => ?_, fun hs => absurd hs h⟩, fun _ => ho⟩
    rw [ho.2] at ha
    exact absurd rfl ha.1

/-- C1 at `beta` with the right secret. -/
theorem ServeHTTP_accepts_iff_witness :
    (sampleEndpoint "beta").logger = some { id := 0 } ∧
      sampleManager.repos.lookup (sampleEndpoint "beta").RepositoryName = some beta ∧
      beta.Config.Webhooks ≠ [] ∧
      ((((sampleEndpoint "beta").ServeHTTP sampleManager goodRequest).updates ≠ [] ∧
          401 ∉ ((sampleEndpoint "beta").ServeHTTP sampleManager goodRequest).statuses) ↔
        ((∃ wh ∈ beta.Config.Webhooks, presented goodRequest wh) ∧
          ∀ wh ∈ beta.Config.Webhooks, presented goodRequest wh →
            Header.Get goodRequest.Header wh.Header = wh.Secret)) :=
  ⟨by decide, by decide, by decide,
    (ServeHTTP_accepts_iff (sampleEndpoint "beta") { id := 0 } sampleManager goodRequest beta
      (by decide) (by decide) (by decide)).1⟩

/-- C2: for a registered repository without webhook rules, whatever the request,
no 401 is written, update is invoked, and the status is 200 when update returns
no error. -/
theorem ServeHTTP_open_policy (m : Endpoint) (l : Logger) (manager : Manager) (r : Request)
    (repo : Repository) (hlog : m.logger = some l)
    (hreg : manager.repos.lookup m.RepositoryName = some repo)
    (hrules : repo.Config.Webhooks = []) :
    401 ∉ (m.ServeHTTP manager r).statuses ∧
      (m.ServeHTTP manager r).updates = [repo.Config.Name] ∧
      (repo.update = none → (m.ServeHTTP manager r).statuses = [200]) := by
  have ho := observe_accept m l hlog manager r repo hreg (Or.inl hrules)
  rw [ho.1, ho.2]
  refine ⟨?_, rfl, fun hu => by simp [hu]⟩
  cases repo.update <;> simp

/-- C2 at `alpha` with a request carrying headers. -/
theorem ServeHTTP_open_policy_witness :
    (sampleEndpoint "alpha").logger = some { id := 0 } ∧
      sampleManager.repos.lookup (sampleEndpoint "alpha").RepositoryName = some alpha ∧
      alpha.Config.Webhooks = [] ∧
      401 ∉ ((sampleEndpoint "alpha").ServeHTTP sampleManager mixedRequest).statuses ∧
      ((sampleEndpoint "alpha").ServeHTTP sampleManager mixedRequest).updates
        = [alpha.Config.Name] ∧
      (alpha.update = none →
        ((sampleEndpoint "alpha").ServeHTTP sampleManager mixedRequest).statuses = [200]) :=
  ⟨by decide, by decide, by decide,
    ServeHTTP_open_policy (sampleEndpoint "alpha") { id := 0 } sampleManager mixedRequest alpha
      (by decide) (by decide) (by decide)⟩

/-- C3: for a registered repository with at least one webhook rule and a request
on which no rule's header has a non-empty value, the status is 401 and update is
not invoked. -/
theorem ServeHTTP_no_header (m : Endpoint) (l : Logger) (manager : Manager) (r : Request)
    (repo : Repository) (hlog : m.logger = some l)
    (hreg : manager.repos.lookup m.RepositoryName = some repo)
    (hrules : repo.Config.Webhooks ≠ [])
    (habsent : ∀ wh ∈ repo.Config.Webhooks, Header.Get r.Header wh.Header = "") :
    (m.ServeHTTP manager r).statuses = [401] ∧ (m.ServeHTTP manager r).updates = [] := by
  apply observe_reject m l hlog manager r repo hreg hrules
  rw [ne_eq, scanWebhooks_authorized_iff]
  rintro ⟨⟨wh, hmem, hp⟩, _⟩
  exact hp (habsent wh hmem)

/-- C3 at `gamma` with a request carrying neither of its two headers. -/
theorem ServeHTTP_no_header_witness :
    (sampleEndpoint "gamma").logger = some { id := 0 } ∧
      sampleManager.repos.lookup (sampleEndpoint "gamma").RepositoryName = some gamma ∧
      gamma.Config.Webhooks ≠ [] ∧
      (∀ wh ∈ gamma.Config.Webhooks, Header.Get bareRequest.Header wh.Header = "") ∧
      ((sampleEndpoint "gamma").ServeHTTP sampleManager bareRequest).statuses = [401] ∧
      ((sampleEndpoint "gamma").ServeHTTP sampleManager bareRequest).updates = [] :=
  ⟨by decide, by decide, by decide, by decide,
    ServeHTTP_no_header (sampleEndpoint "gamma") { id := 0 } sampleManager bareRequest gamma
      (by decide) (by decide) (by decide) (by decide)⟩

/-- C4: for a registered repository, when the request carries a non-empty value
for the header of some rule and that value differs from the rule's secret, the
status is 401 and update is not invoked, wherever the rule sits in the list and
whatever the other rules and headers are. -/
theorem ServeHTTP_wrong_header (m : Endpoint) (l : Logger) (manager : Manager) (r : Request)
    (repo : Repository) (hlog : m.logger = some l)
    (hreg : manager.repos.lookup m.RepositoryName = some repo)
    (pre post : List WebhookConfig) (wh : WebhookConfig)
    (hrules : repo.Config.Webhooks = pre ++ wh :: post)
    (hpresent : Header.Get r.Header wh.Header ≠ "")
    (hwrong : Header.Get r.Header wh.Header ≠ wh.Secret) :
    (m.ServeHTTP manager r).statuses = [401] ∧ (m.ServeHTTP manager r).updates = [] := by
  apply observe_reject m l hlog manager r repo hreg (by simp [hrules])
  rw [ne_eq, scanWebhooks_authorized_iff]
  rintro ⟨_, hall⟩
  exact hwrong (hall wh (by simp [hrules]) hpresent)

/-- C4 at `gamma`: the first rule's header is right, the second rule's is wrong. -/
theorem ServeHTTP_wrong_header_witness :
    (sampleEndpoint "gamma").logger = some { id := 0 } ∧
      sampleManager.repos.lookup (sampleEndpoint "gamma").RepositoryName = some gamma ∧
      gamma.Config.Webhooks =
        [{ Header := "X-Hub-Sig", Secret := "s3cr3t" }] ++
          { Header := "X-Token", Secret := "t0k3n" } :: [] ∧
      Header.Get mixedRequest.Header "X-Hub-Sig" = "s3cr3t" ∧
      Header.Get mixedRequest.Header "X-Token" ≠ "" ∧
      Header.Get mixedRequest.Header "X-Token" ≠ "t0k3n" ∧
      ((sampleEndpoint "gamma").ServeHTTP sampleManager mixedRequest).statuses = [401] ∧
      ((sampleEndpoint "gamma").ServeHTTP sampleManager mixedRequest).updates = [] :=
  ⟨by decide, by decide, by decide, by decide, by decide, by decide,
    ServeHTTP_wrong_header (sampleEndpoint "gamma") { id := 0 } sampleManager mixedRequest gamma
      (by decide) (by decide) [{ Header := "X-Hub-Sig", Secret := "s3cr3t" }] []
      { Header := "X-Token", Secret := "t0k3n" } (by decide) (by decide) (by decide)⟩

/-- C5: for a registered repository whose rules are `pre ++ wh :: post`, a
request that carries the header of `wh` with the non-empty secret of `wh` and
has the header of every other rule absent is authenticated: no 401 is written,
update is invoked, and the status is 200 when update returns no error. -/
theorem ServeHTTP_single_correct_header (m : Endpoint) (l : Logger) (manager : Manager)
    (r : Request) (repo : Repository) (hlog : m.logger = some l)
    (hreg : manager.repos.lookup m.RepositoryName = some repo)
    (pre post : List WebhookConfig) (wh : WebhookConfig)
    (hrules : repo.Config.Webhooks = pre ++ wh :: post)
    (hsecret : wh.Secret ≠ "")
    (hright : Header.Get r.Header wh.Header = wh.Secret)
    (hothers : ∀ w ∈ pre ++ post, Header.Get r.Header w.Header = "") :
    401 ∉ (m.ServeHTTP manager r).statuses ∧
      (m.ServeHTTP manager r).updates = [repo.Config.Name] ∧
      (repo.update = none → (m.ServeHTTP manager r).statuses = [200]) := by
  have hscan : scanWebhooks r repo.Config.Webhooks false = .done true := by
    rw [scanWebhooks_authorized_iff]
    refine ⟨⟨wh, by simp [hrules], by simp [presented, hright, hsecret]⟩, ?_⟩
    intro w hw hp
    rw [hrules, List.mem_append, List.mem_cons] at hw
    rcases hw with hw | hw | hw
    · exact absurd (hothers w (List.mem_append_left _ hw)) hp
    · rw [hw]; exact hright
    · exact absurd (hothers w (List.mem_append_right _ hw)) hp
  have ho := observe_accept m l hlog manager r repo hreg (Or.inr hscan)
  rw [ho.1, ho.2]
  refine ⟨?_, rfl, fun hu => by simp [hu]⟩
  cases repo.update <;> simp

/-- C5 at `gamma`: only the first of its two headers is carried. -/
theorem ServeHTTP_single_correct_header_witness :
    (sampleEndpoint "gamma").logger = some { id := 0 } ∧
      sampleManager.repos.lookup (sampleEndpoint "gamma").RepositoryName = some gamma ∧
      gamma.Config.Webhooks =
        [] ++ { Header := "X-Hub-Sig", Secret := "s3cr3t" } ::
          [{ Header := "X-Token", Secret := "t0k3n" }] ∧
      Header.Get goodRequest.Header "X-Hub-Sig" = "s3cr3t" ∧
      Header.Get goodRequest.Header "X-Token" = "" ∧
      401 ∉ ((sampleEndpoint "gamma").ServeHTTP sampleManager goodRequest).statuses ∧
      ((sampleEndpoint "gamma").ServeHTTP sampleManager goodRequest).updates
        = [gamma.Config.Name] ∧
      (gamma.update = none →
        ((sampleEndpoint "gamma").ServeHTTP sampleManager goodRequest).statuses = [200]) :=
  ⟨by decide, by decide, by decide, by decide, by decide,
    ServeHTTP_single_correct_header (sampleEndpoint "gamma") { id := 0 } sampleManager
      goodRequest gamma (by decide) (by decide) []
      [{ Header := "X-Token", Secret := "t0k3n" }] { Header := "X-Hub-Sig", Secret := "s3cr3t" }
      (by decide) (by decide) (by decide) (by decide)⟩

/-- C6: when `RepositoryName` is not a key of the registry, the status is 500,
update is invoked on no repository, and the only log entries are the one for the
received request and the one saying the repository was not found: no entry of
the webhook check is produced. -/
theorem ServeHTTP_unknown_repository (m : Endpoint) (l : Logger) (manager : Manager)
    (r : Request) (hlog : m.logger = some l)
    (hreg : manager.repos.lookup m.RepositoryName = none) :
    (m.ServeHTTP manager r).statuses = [500] ∧
      (m.ServeHTTP manager r).updates = [] ∧
      (m.ServeHTTP manager r).logs =
        [.log .debug "received update git repo request" [("repo_name", m.RepositoryName)],
          .log .warn "repo not found" [("repo_name", m.RepositoryName)]] ∧
      ∀ level fields,
        Event.log level "webhook authentication failed" fields ∉ (m.ServeHTTP manager r).trace := by
  rw [ServeHTTP_unregistered m l hlog manager r hreg]
  refine ⟨by simp [Run.statuses], by simp [Run.updates], by simp [Run.logs], ?_⟩
  intro level fields
  simp only [List.mem_cons, Event.log.injEq, List.mem_singleton, reduceCtorEq, or_false,
    List.not_mem_nil, not_or, not_and]
  refine ⟨fun _ h => absurd h (by decide), fun _ h => absurd h (by decide)⟩

/-- C6 at the name `ghost`, which the sample registry does not hold. -/
theorem ServeHTTP_unknown_repository_witness :
    (sampleEndpoint "ghost").logger = some { id := 0 } ∧
      sampleManager.repos.lookup (sampleEndpoint "ghost").RepositoryName = none ∧
      ((sampleEndpoint "ghost").ServeHTTP sampleManager goodRequest).statuses = [500] ∧
      ((sampleEndpoint "ghost").ServeHTTP sampleManager goodRequest).updates = [] :=
  ⟨by decide, by decide,
    (ServeHTTP_unknown_repository (sampleEndpoint "ghost") { id := 0 } sampleManager goodRequest
      (by decide) (by decide)).1,
    (ServeHTTP_unknown_repository (sampleEndpoint "ghost") { id := 0 } sampleManager goodRequest
      (by decide) (by decide)).2.1⟩

/-- C7: the handler writes one status, which is 200, 401 or 500; it is 200
exactly when the repository is registered, the webhook check accepts the request
(no rule, or some rule's header carried and every carried rule header equal to
its secret) and update returns no error; when the check accepts and update
returns an error it is 500. -/
theorem ServeHTTP_status_codes (m : Endpoint) (l : Logger) (manager : Manager) (r : Request)
    (hlog : m.logger = some l) :
    ∃ c, (m.ServeHTTP manager r).statuses = [c] ∧ (c = 200 ∨ c = 401 ∨ c = 500) ∧
      (c = 200 ↔ ∃ repo, manager.repos.lookup m.RepositoryName = some repo ∧
        (repo.Config.Webhooks = [] ∨
          ((∃ wh ∈ repo.Config.Webhooks, presented r wh) ∧
            ∀ wh ∈ repo.Config.Webhooks, presented r wh →
              Header.Get r.Header wh.Header = wh.Secret)) ∧
        repo.update = none) ∧
      ∀ repo err, manager.repos.lookup m.RepositoryName = some repo →
        (repo.Config.Webhooks = [] ∨
          ((∃ wh ∈ repo.Config.Webhooks, presented r wh) ∧
            ∀ wh ∈ repo.Config.Webhooks, presented r wh →
              Header.Get r.Header wh.Header = wh.Secret)) →
        repo.update = some err → c = 500 := by
  simp only [← scanWebhooks_authorized_iff]
  cases hreg : manager.repos.lookup m.RepositoryName with
  | none =>
    refine ⟨500, ?_, by simp, by simp, by simp⟩
    simp [ServeHTTP_unregistered m l hlog manager r hreg, Run.statuses]
  | some repo =>
    by_cases hacc : repo.Config.Webhooks = [] ∨
        scanWebhooks r repo.Config.Webhooks false = .done true
    · have ho := observe_accept m l hlog manager r repo hreg hacc
      cases hu : repo.update with
      | none =>
        refine ⟨200, by simpa [hu] using ho.1, by simp, ?_, ?_⟩
        · simp only [Option.some.injEq, true_iff]
          exact ⟨repo, rfl, hacc, hu⟩
        · intro repo1 err h1 _ h2
          rw [Option.some.injEq] at h1
          subst h1
          rw [hu] at h2
          exact absurd h2 (by simp)
      | some err =>
        refine ⟨500, by simpa [hu] using ho.1, by simp, ?_, fun _ _ _ _ _ => rfl⟩
        simp only [Option.some.injEq]
        constructor
        · intro h
          exact absurd h (by decide)
        · rintro ⟨repo1, h1, _, h2⟩
          subst h1
          rw [hu] at h2
          exact absurd h2 (by simp)
    · rw [not_or] at hacc
      have ho := observe_reject m l hlog manager r repo hreg hacc.1 hacc.2
      refine ⟨401, ho.1, by simp, ?_, ?_⟩
      · simp only [Option.some.injEq]
        constructor
        · intro h
          exact absurd h (by decide)
        · rintro ⟨repo1, h1, h2, _⟩
          subst h1
          exact absurd h2 (not_or.mpr hacc)
      · intro repo1 err h1 h2 _
        rw [Option.some.injEq] at h1
        subst h1
        exact absurd h2 (not_or.mpr hacc)

/-- C7 at `gamma`, whose update fails, with its first header carried. -/
theorem ServeHTTP_status_codes_witness :
    (sampleEndpoint "gamma").logger = some { id := 0 } ∧
      ∃ c, ((sampleEndpoint "gamma").ServeHTTP sampleManager goodRequest).statuses = [c] ∧
        (c = 200 ∨ c = 401 ∨ c = 500) :=
  ⟨by decide,
    (ServeHTTP_status_codes (sampleEndpoint "gamma") { id := 0 } sampleManager goodRequest
      (by decide)).imp fun _ h => ⟨h.1, h.2.1⟩⟩

/-- C9, as stated, fails: on a map with `status_code` 200 whose serialization
fails the handler writes status 200, not 500, with an empty body; and on a map
whose `status_code` is not an `int` it panics without writing a response. -/
theorem marshal_failure_keeps_status :
    json.Marshal unencodable = .error "json: unsupported type" ∧
      (sampleEndpoint "beta").respondHTTP unencodable =
        { trace := [.writeHeader 200, .write ""], exit := .returned none } ∧
      ((sampleEndpoint "beta").respondHTTP unencodable).statuses ≠ [500] ∧
      json.Marshal unencodableStatus = .error "json: unsupported type" ∧
      (sampleEndpoint "beta").respondHTTP unencodableStatus =
        { trace := [], exit := .panicked } :=
  ⟨rfl, by decide, by decide, rfl, by decide⟩

/-- C9, amended: when serialization of the map fails, (a) if the map holds an
`int` `status_code` between 100 and 999, `respondHTTP` still responds: it writes
that status, not a fallback 500, then an empty body, and returns nil; (b) if the
map has no `status_code` key it writes status 500, then an empty body, and
returns nil; (c) if `status_code` holds a value that is not an `int`, or an
`int` outside 100..999, it panics and no response is written. -/
theorem respondHTTP_marshal_failure (m : Endpoint) (data : GoMap) (e : String)
    (hfail : json.Marshal data = .error e) :
    (∀ c, data.get "status_code" = some (.int c) → 100 ≤ c → c ≤ 999 →
        m.respondHTTP data = { trace := [.writeHeader c, .write ""], exit := .returned none }) ∧
      (data.get "status_code" = none →
        m.respondHTTP data =
          { trace := [.writeHeader 500, .write ""], exit := .returned none }) ∧
      (∀ v, data.get "status_code" = some v →
        (∀ c, v = .int c → ¬ (100 ≤ c ∧ c ≤ 999)) →
        m.respondHTTP data = { trace := [], exit := .panicked }) := by
  refine ⟨?_, ?_, ?_⟩
  · intro c hc hlow hhigh
    simp [Endpoint.respondHTTP, writeHeaderThen, Run.after, hfail, hc, hlow, hhigh]
  · intro hc
    simp [Endpoint.respondHTTP, writeHeaderThen, Run.after, hfail, hc,
      http.StatusInternalServerError]
  · intro v hv hbad
    cases v with
    | int c =>
      have hc := hbad c rfl
      simp [Endpoint.respondHTTP, writeHeaderThen, hv, hc]
    | str _ => simp [Endpoint.respondHTTP, hv]
    | bool _ => simp [Endpoint.respondHTTP, hv]
    | null => simp [Endpoint.respondHTTP, hv]
    | unsupported => simp [Endpoint.respondHTTP, hv]

/-- C9, amended, at a map with `status_code` 200 and a value that cannot be
encoded. -/
theorem respondHTTP_marshal_failure_witness :
    json.Marshal unencodable = .error "json: unsupported type" ∧
      unencodable.get "status_code" = some (.int 200) ∧
      (100 : Int) ≤ 200 ∧ (200 : Int) ≤ 999 ∧
      (sampleEndpoint "beta").respondHTTP unencodable =
        { trace := [.writeHeader 200, .write ""], exit := .returned none } :=
  ⟨rfl, by decide, by decide, by decide,
    (respondHTTP_marshal_failure (sampleEndpoint "beta") unencodable "json: unsupported type"
      rfl).1 200 (by decide) (by decide) (by decide)⟩

/-- C10, as stated, fails: on the map holding `status_code: 0` the call of
`WriteHeader` panics, so no status and no body are written and nil is not
returned. -/
theorem respondHTTP_invalid_code_panics :
    (sampleEndpoint "beta").respondHTTP zeroStatus = { trace := [], exit := .panicked } ∧
      ((sampleEndpoint "beta").respondHTTP zeroStatus).statuses = [] ∧
      ((sampleEndpoint "beta").respondHTTP zeroStatus).bodies = [] := by
  decide

/-- C10, amended: on the map holding only `status_code: c` with `c` between 100
and 999, `respondHTTP` writes status `c` and then, as body, the JSON object
whose only member is `status_code` with value `c`, and returns nil; for a `c`
outside 100..999 it panics and writes nothing; for `c = 200` the body holds
`status_code` 200; and in every run of `ServeHTTP` the bodies written are these
objects for the statuses written. -/
theorem respondHTTP_status_code_body (m : Endpoint) (c : Int) :
    (100 ≤ c → c ≤ 999 →
        m.respondHTTP (.made [("status_code", .int c)]) =
          { trace := [.writeHeader c, .write ("\x7b\"status_code\":" ++ toString c ++ "\x7d")],
            exit := .returned none }) ∧
      (¬ (100 ≤ c ∧ c ≤ 999) →
        m.respondHTTP (.made [("status_code", .int c)]) = { trace := [], exit := .panicked }) ∧
      m.respondHTTP (.made [("status_code", .int 200)]) =
        { trace := [.writeHeader 200, .write "\x7b\"status_code\":200\x7d"],
          exit := .returned none } ∧
      ∀ (manager : Manager) (r : Request),
        (m.ServeHTTP manager r).bodies =
          (m.ServeHTTP manager r).statuses.map
            fun c => "\x7b\"status_code\":" ++ toString c ++ "\x7d" := by
  refine ⟨fun hlow hhigh => respondHTTP_status m c hlow hhigh, ?_, ?_,
    fun manager r => bodies_of_statuses m manager r⟩
  · intro hbad
    simp [Endpoint.respondHTTP, writeHeaderThen, GoMap.get, List.lookup, hbad]
  · rw [respondHTTP_status m 200 (by decide) (by decide)]
    decide

/-- C10, amended, at the status 404. -/
theorem respondHTTP_status_code_body_witness :
    (100 : Int) ≤ 404 ∧ (404 : Int) ≤ 999 ∧
      (sampleEndpoint "beta").respondHTTP (.made [("status_code", .int 404)]) =
        { trace :=
            [.writeHeader 404, .write ("\x7b\"status_code\":" ++ toString (404 : Int) ++ "\x7d")],
          exit := .returned none } :=
  ⟨by decide, by decide,
    (respondHTTP_status_code_body (sampleEndpoint "beta") 404).1 (by decide) (by decide)⟩

/-! ## The call of `respondHTTP` made by the handler -/

theorem ServeHTTP_eq_respondCall (m : Endpoint) (manager : Manager) (r : Request) :
    m.ServeHTTP manager r =
      match m.respondCall manager r with
      | none => { trace := [], exit := .panicked }
      | some call => (m.respondHTTP call.data).after call.before := by
  cases hlog : m.logger with
  | none => simp [ServeHTTP_nil_logger m hlog, Endpoint.respondCall, hlog]
  | some l =>
    cases hreg : manager.repos.lookup m.RepositoryName with
    | none =>
      simp [Endpoint.ServeHTTP, Endpoint.respondCall, hlog, hreg, logCall_some m l hlog,
        assign_made, respondWith, GoMap.set, Run.after]
    | some repo =>
      by_cases hl : 0 < repo.Config.Webhooks.length <;>
      cases hu : repo.update <;>
      cases hs : scanWebhooks r repo.Config.Webhooks false with
      | mismatch wh =>
        simp [Endpoint.ServeHTTP, Endpoint.respondCall, Endpoint.dispatch, hlog, hreg, hu, hs,
          hl, logCall_some m l hlog, assign_made, respondWith, GoMap.set, Run.after]
      | done b =>
        cases b <;>
        simp [Endpoint.ServeHTTP, Endpoint.respondCall, Endpoint.dispatch, hlog, hreg, hu, hs,
          hl, logCall_some m l hlog, assign_made, respondWith, GoMap.set, Run.after]

theorem respondCall_status (m : Endpoint) (manager : Manager) (r : Request)
    (call : RespondCall) (h : m.respondCall manager r = some call) :
    ∃ c, call.data = .made [("status_code", .int c)] ∧ (c = 200 ∨ c = 401 ∨ c = 500) := by
  cases hlog : m.logger with
  | none => simp [Endpoint.respondCall, hlog] at h
  | some l =>
    cases hreg : manager.repos.lookup m.RepositoryName with
    | none =>
      simp [Endpoint.respondCall, hlog, hreg, respondWith, GoMap.set] at h
      subst h
      exact ⟨500, rfl, by simp⟩
    | some repo =>
      by_cases hl : 0 < repo.Config.Webhooks.length <;>
      cases hu : repo.update <;>
      cases hs : scanWebhooks r repo.Config.Webhooks false with
      | mismatch wh =>
        simp [Endpoint.respondCall, hlog, hreg, hu, hs, hl, respondWith, GoMap.set] at h
        subst h
        simp [http.StatusUnauthorized, http.StatusOK, http.StatusInternalServerError]
      | done b =>
        cases b <;>
        simp [Endpoint.respondCall, hlog, hreg, hu, hs, hl, respondWith, GoMap.set] at h <;>
        subst h <;>
        simp [http.StatusUnauthorized, http.StatusOK, http.StatusInternalServerError]

theorem respondCall_isSome (m : Endpoint) (l : Logger) (hlog : m.logger = some l)
    (manager : Manager) (r : Request) : ∃ call, m.respondCall manager r = some call := by
  cases hreg : manager.repos.lookup m.RepositoryName with
  | none => simp [Endpoint.respondCall, hlog, hreg, respondWith, GoMap.set]
  | some repo =>
    by_cases hl : 0 < repo.Config.Webhooks.length <;>
    cases hu : repo.update <;>
    cases hs : scanWebhooks r repo.Config.Webhooks false with
    | mismatch wh =>
      simp [Endpoint.respondCall, hlog, hreg, hu, hs, hl, respondWith, GoMap.set]
    | done b =>
      cases b <;>
      simp [Endpoint.respondCall, hlog, hreg, hu, hs, hl, respondWith, GoMap.set]

theorem respondCall_before_quiet (m : Endpoint) (manager : Manager) (r : Request)
    (call : RespondCall) (h : m.respondCall manager r = some call) (x : Exit) :
    Run.statuses { trace := call.before, exit := x } = [] ∧
      Run.bodies { trace := call.before, exit := x } = [] := by
  cases hlog : m.logger with
  | none => simp [Endpoint.respondCall, hlog] at h
  | some l =>
    cases hreg : manager.repos.lookup m.RepositoryName with
    | none =>
      simp [Endpoint.respondCall, hlog, hreg, respondWith, GoMap.set] at h
      subst h
      simp [Run.statuses, Run.bodies]
    | some repo =>
      by_cases hl : 0 < repo.Config.Webhooks.length <;>
      cases hu : repo.update <;>
      cases hs : scanWebhooks r repo.Config.Webhooks false with
      | mismatch wh =>
        simp [Endpoint.respondCall, hlog, hreg, hu, hs, hl, respondWith, GoMap.set] at h
        subst h
        simp [Run.statuses, Run.bodies]
      | done b =>
        cases b <;>
        simp [Endpoint.respondCall, hlog, hreg, hu, hs, hl, respondWith, GoMap.set] at h <;>
        subst h <;>
        simp [Run.statuses, Run.bodies]

/-! ## The claims on the response and on provisioning -/

/-- C11: on a map without the key `status_code`, `respondHTTP` writes status 500,
never 200, then writes as body what `json.Marshal` produced for the map (the
serialized map; nothing when the map cannot be serialized), and returns nil. -/
theorem respondHTTP_default_status (m : Endpoint) (data : GoMap)
    (hkey : data.get "status_code" = none) :
    (m.respondHTTP data).statuses = [500] ∧ 200 ∉ (m.respondHTTP data).statuses ∧
      (∀ b, json.Marshal data = .ok b →
        (m.respondHTTP data).trace = [.writeHeader 500, .write b]) ∧
      (∀ e, json.Marshal data = .error e →
        (m.respondHTTP data).trace = [.writeHeader 500, .write ""]) ∧
      (m.respondHTTP data).exit = .returned none := by
  refine ⟨?_, ?_, ?_, ?_, ?_⟩
  · simp [Endpoint.respondHTTP, writeHeaderThen, Run.after, hkey, Run.statuses,
      http.StatusInternalServerError]
  · simp [Endpoint.respondHTTP, writeHeaderThen, Run.after, hkey, Run.statuses,
      http.StatusInternalServerError]
  · intro b hb
    simp [Endpoint.respondHTTP, writeHeaderThen, Run.after, hkey, hb,
      http.StatusInternalServerError]
  · intro e he
    simp [Endpoint.respondHTTP, writeHeaderThen, Run.after, hkey, he,
      http.StatusInternalServerError]
  · simp [Endpoint.respondHTTP, writeHeaderThen, Run.after, hkey,
      http.StatusInternalServerError]

/-- C11 at a map holding only a message. -/
theorem respondHTTP_default_status_witness :
    messageOnly.get "status_code" = none ∧
      json.Marshal messageOnly = .ok "\x7b\"message\":\"ok\"\x7d" ∧
      ((sampleEndpoint "beta").respondHTTP messageOnly).statuses = [500] ∧
      ((sampleEndpoint "beta").respondHTTP messageOnly).trace =
        [.writeHeader 500, .write "\x7b\"message\":\"ok\"\x7d"] :=
  ⟨by decide, rfl,
    (respondHTTP_default_status (sampleEndpoint "beta") messageOnly (by decide)).1,
    (respondHTTP_default_status (sampleEndpoint "beta") messageOnly (by decide)).2.2.1 _ rfl⟩

/-- C12: every run of `ServeHTTP` of an endpoint whose logger is set, whichever
path it takes, ends with one call of `WriteHeader` followed by one call of
`Write`, makes no other call on the response writer, and returns a nil error. -/
theorem ServeHTTP_responds_once (m : Endpoint) (l : Logger) (manager : Manager) (r : Request)
    (hlog : m.logger = some l) :
    ∃ pre c b, (m.ServeHTTP manager r).trace = pre ++ [.writeHeader c, .write b] ∧
      (m.ServeHTTP manager r).statuses = [c] ∧ (m.ServeHTTP manager r).bodies = [b] ∧
      (m.ServeHTTP manager r).exit = .returned none := by
  obtain ⟨call, hcall⟩ := respondCall_isSome m l hlog manager r
  obtain ⟨c, hdata, hc⟩ := respondCall_status m manager r call hcall
  have hlow : 100 ≤ c := by rcases hc with h | h | h <;> omega
  have hhigh : c ≤ 999 := by rcases hc with h | h | h <;> omega
  have hq := respondCall_before_quiet m manager r call hcall (.returned none)
  simp only [Run.statuses, Run.bodies] at hq
  refine ⟨call.before, c, "\x7b\"status_code\":" ++ toString c ++ "\x7d", ?_, ?_, ?_, ?_⟩ <;>
    simp [ServeHTTP_eq_respondCall, hcall, hdata, respondHTTP_status m c hlow hhigh, Run.after,
      Run.statuses, Run.bodies, hq.1, hq.2]

/-- C12 at `gamma`, on the path where update fails. -/
theorem ServeHTTP_responds_once_witness :
    (sampleEndpoint "gamma").logger = some { id := 0 } ∧
      ∃ pre c b,
        ((sampleEndpoint "gamma").ServeHTTP sampleManager goodRequest).trace =
          pre ++ [.writeHeader c, .write b] ∧
        ((sampleEndpoint "gamma").ServeHTTP sampleManager goodRequest).statuses = [c] ∧
        ((sampleEndpoint "gamma").ServeHTTP sampleManager goodRequest).bodies = [b] ∧
        ((sampleEndpoint "gamma").ServeHTTP sampleManager goodRequest).exit = .returned none :=
  ⟨by decide,
    ServeHTTP_responds_once (sampleEndpoint "gamma") { id := 0 } sampleManager goodRequest
      (by decide)⟩

/-- C13: two runs of `ServeHTTP` that write the same status write the same body,
whatever the endpoints, the registries (names, secrets, update results) and the
requests are. -/
theorem ServeHTTP_body_depends_on_status (m1 m2 : Endpoint) (manager1 manager2 : Manager)
    (r1 r2 : Request)
    (h : (m1.ServeHTTP manager1 r1).statuses = (m2.ServeHTTP manager2 r2).statuses) :
    (m1.ServeHTTP manager1 r1).bodies = (m2.ServeHTTP manager2 r2).bodies := by
  rw [bodies_of_statuses, bodies_of_statuses, h]

/-- C13 at two runs that end with 401 for different reasons, on different
repositories. -/
theorem ServeHTTP_body_depends_on_status_witness :
    ((sampleEndpoint "gamma").ServeHTTP sampleManager mixedRequest).statuses =
        ((sampleEndpoint "beta").ServeHTTP sampleManager bareRequest).statuses ∧
      ((sampleEndpoint "gamma").ServeHTTP sampleManager mixedRequest).bodies =
        ((sampleEndpoint "beta").ServeHTTP sampleManager bareRequest).bodies :=
  ⟨by decide,
    ServeHTTP_body_depends_on_status (sampleEndpoint "gamma") (sampleEndpoint "beta")
      sampleManager sampleManager mixedRequest bareRequest (by decide)⟩

/-- C17: for an endpoint whose logger is set, `Provision` sets `Name` to `git-`
followed by `RepositoryName`, leaves `RepositoryName` unchanged and returns nil;
a second `Provision` leaves the same `Name`. -/
theorem Provision_sets_name (m : Endpoint) (l : Logger) (now : Nat)
    (hlog : m.logger = some l) :
    (m.Provision now).1.Name = "git-" ++ m.RepositoryName ∧
      (m.Provision now).1.RepositoryName = m.RepositoryName ∧
      (m.Provision now).2.exit = .returned none ∧
      ∀ later, ((m.Provision now).1.Provision later).1.Name = (m.Provision now).1.Name ∧
        ((m.Provision now).1.Provision later).2.exit = .returned none := by
  refine ⟨rfl, rfl, ?_, fun later => ⟨rfl, ?_⟩⟩ <;>
    simp [Endpoint.Provision, Endpoint.logCall, hlog, Run.after]

/-- C17 at an endpoint for `beta` that was not provisioned yet. -/
theorem Provision_sets_name_witness :
    unprovisioned.logger = some { id := 0 } ∧
      (unprovisioned.Provision 1667347200).1.Name = "git-beta" ∧
      (unprovisioned.Provision 1667347200).1.RepositoryName = "beta" :=
  ⟨by decide,
    (Provision_sets_name unprovisioned { id := 0 } 1667347200 (by decide)).1,
    (Provision_sets_name unprovisioned { id := 0 } 1667347200 (by decide)).2.1⟩

/-- C20: in every run of `ServeHTTP` that reaches `respondHTTP`, the map passed
holds an `int` under the key `status_code`, so `respondHTTP` neither panics at
the type assertion nor takes its default-status branch; and every run of an
endpoint whose logger is set reaches `respondHTTP` and returns without panic. -/
theorem ServeHTTP_status_code_is_int (m : Endpoint) (manager : Manager) (r : Request) :
    (∀ call, m.respondCall manager r = some call →
        (∃ c, call.data.get "status_code" = some (.int c)) ∧
          call.data.get "status_code" ≠ none ∧
          (m.respondHTTP call.data).exit = .returned none ∧
          m.ServeHTTP manager r = (m.respondHTTP call.data).after call.before) ∧
      ∀ l, m.logger = some l →
        (∃ call, m.respondCall manager r = some call) ∧
          (m.ServeHTTP manager r).exit = .returned none := by
  constructor
  · intro call hcall
    obtain ⟨c, hdata, hc⟩ := respondCall_status m manager r call hcall
    have hlow : 100 ≤ c := by rcases hc with h | h | h <;> omega
    have hhigh : c ≤ 999 := by rcases hc with h | h | h <;> omega
    refine ⟨⟨c, ?_⟩, ?_, ?_, ?_⟩
    · simp [hdata, GoMap.get, List.lookup]
    · simp [hdata, GoMap.get, List.lookup]
    · simp [hdata, respondHTTP_status m c hlow hhigh]
    · simp [ServeHTTP_eq_respondCall, hcall]
  · intro l hlog
    obtain ⟨call, hcall⟩ := respondCall_isSome m l hlog manager r
    obtain ⟨c, hdata, hc⟩ := respondCall_status m manager r call hcall
    have hlow : 100 ≤ c := by rcases hc with h | h | h <;> omega
    have hhigh : c ≤ 999 := by rcases hc with h | h | h <;> omega
    refine ⟨⟨call, hcall⟩, ?_⟩
    simp [ServeHTTP_eq_respondCall, hcall, hdata, respondHTTP_status m c hlow hhigh, Run.after]

/-- C20 at `beta` with the right secret. -/
theorem ServeHTTP_status_code_is_int_witness :
    (sampleEndpoint "beta").logger = some { id := 0 } ∧
      (∃ call, (sampleEndpoint "beta").respondCall sampleManager goodRequest = some call) ∧
      ((sampleEndpoint "beta").ServeHTTP sampleManager goodRequest).exit = .returned none :=
  ⟨by decide,
    (ServeHTTP_status_code_is_int (sampleEndpoint "beta") sampleManager goodRequest).2
      { id := 0 } (by decide)⟩

/-! ## The claims on the log entries, on the order of the rules and on empty secrets -/

theorem scanWebhooks_first_mismatch (r : Request) (pre post : List WebhookConfig)
    (wh : WebhookConfig) (a : Bool)
    (hpre : ∀ w ∈ pre, presented r w → Header.Get r.Header w.Header = w.Secret)
    (hp : Header.Get r.Header wh.Header ≠ "")
    (hw : Header.Get r.Header wh.Header ≠ wh.Secret) :
    scanWebhooks r (pre ++ wh :: post) a = .mismatch wh := by
  induction pre generalizing a with
  | nil =>
    simp only [List.nil_append]
    unfold scanWebhooks
    rw [if_neg hp, if_pos hw]
  | cons w rest ih =>
    have hrest : ∀ w1 ∈ rest, presented r w1 → Header.Get r.Header w1.Header = w1.Secret :=
      fun w1 h1 => hpre w1 (List.mem_cons_of_mem _ h1)
    simp only [List.cons_append]
    unfold scanWebhooks
    by_cases h1 : Header.Get r.Header w.Header = ""
    · rw [if_pos h1]
      exact ih a hrest
    · rw [if_neg h1, if_neg (not_not.mpr (hpre w (List.mem_cons_self _ _) h1))]
      exact ih true hrest

theorem scanWebhooks_all_absent (r : Request) (rules : List WebhookConfig)
    (habsent : ∀ wh ∈ rules, Header.Get r.Header wh.Header = "") :
    scanWebhooks r rules false = .done false := by
  rw [scanWebhooks_done_iff]
  refine ⟨fun wh hmem hp => absurd (habsent wh hmem) hp, ?_⟩
  simp only [Bool.false_eq_true, false_or, false_iff, not_exists, not_and]
  exact fun wh hmem hp => hp (habsent wh hmem)

/-- C14, as stated, fails: the reason recorded for a wrong header is the text
`auth header value mismatch` and the reason recorded when no header is carried
is `auth header not found`; no entry with the reasons of the claim is made. -/
theorem auth_failure_reason_text :
    ((sampleEndpoint "gamma").ServeHTTP sampleManager mixedRequest).logs =
        [.log .debug "received update git repo request" [("repo_name", "gamma")],
          .log .warn "webhook authentication failed"
            [("repo_name", "gamma"), ("webhook_header", "X-Token"),
              ("error", "auth header value mismatch")]] ∧
      Event.log .warn "webhook authentication failed"
          [("repo_name", "gamma"), ("webhook_header", "X-Token"),
            ("error", "header value mismatch")] ∉
        ((sampleEndpoint "gamma").ServeHTTP sampleManager mixedRequest).trace ∧
      ((sampleEndpoint "beta").ServeHTTP sampleManager bareRequest).logs =
        [.log .debug "received update git repo request" [("repo_name", "beta")],
          .log .warn "webhook authentication failed"
            [("repo_name", "beta"), ("error", "auth header not found")]] ∧
      Event.log .warn "webhook authentication failed"
          [("repo_name", "beta"), ("error", "header not found")] ∉
        ((sampleEndpoint "beta").ServeHTTP sampleManager bareRequest).trace := by
  decide

/-- C14, amended: when the first rule in list order whose header is carried with
a value different from its secret is `wh`, the only entry logged after the one
for the received request is a warning with the repository's `Config.Name`, the
header name of `wh` and the reason `auth header value mismatch`; when there is
at least one rule and no rule's header is carried, it is a warning with the
repository's `Config.Name` and the reason `auth header not found`. -/
theorem ServeHTTP_auth_failure_entry (m : Endpoint) (l : Logger) (manager : Manager)
    (r : Request) (repo : Repository) (hlog : m.logger = some l)
    (hreg : manager.repos.lookup m.RepositoryName = some repo) :
    (∀ pre wh post, repo.Config.Webhooks = pre ++ wh :: post →
        (∀ w ∈ pre, presented r w → Header.Get r.Header w.Header = w.Secret) →
        Header.Get r.Header wh.Header ≠ "" →
        Header.Get r.Header wh.Header ≠ wh.Secret →
        (m.ServeHTTP manager r).logs =
          [.log .debug "received update git repo request" [("repo_name", m.RepositoryName)],
            .log .warn "webhook authentication failed"
              [("repo_name", repo.Config.Name), ("webhook_header", wh.Header),
                ("error", "auth header value mismatch")]]) ∧
      (repo.Config.Webhooks ≠ [] →
        (∀ wh ∈ repo.Config.Webhooks, Header.Get r.Header wh.Header = "") →
        (m.ServeHTTP manager r).logs =
          [.log .debug "received update git repo request" [("repo_name", m.RepositoryName)],
            .log .warn "webhook authentication failed"
              [("repo_name", repo.Config.Name), ("error", "auth header not found")]]) := by
  constructor
  · intro pre wh post hrules hpre hp hw
    have hscan : scanWebhooks r repo.Config.Webhooks false = .mismatch wh := by
      rw [hrules]
      exact scanWebhooks_first_mismatch r pre post wh false hpre hp hw
    simp [ServeHTTP_mismatch m l hlog manager r repo wh hreg hscan, Run.logs]
  · intro hne habsent
    have hscan := scanWebhooks_all_absent r repo.Config.Webhooks habsent
    simp [ServeHTTP_not_found m l hlog manager r repo hreg hne hscan, Run.logs]

/-- C14, amended, at `gamma`: the first header is right, the second is wrong. -/
theorem ServeHTTP_auth_failure_entry_witness :
    (sampleEndpoint "gamma").logger = some { id := 0 } ∧
      sampleManager.repos.lookup (sampleEndpoint "gamma").RepositoryName = some gamma ∧
      ((sampleEndpoint "gamma").ServeHTTP sampleManager mixedRequest).logs =
        [.log .debug "received update git repo request"
            [("repo_name", (sampleEndpoint "gamma").RepositoryName)],
          .log .warn "webhook authentication failed"
            [("repo_name", gamma.Config.Name), ("webhook_header", "X-Token"),
              ("error", "auth header value mismatch")]] :=
  ⟨by decide, by decide,
    (ServeHTTP_auth_failure_entry (sampleEndpoint "gamma") { id := 0 } sampleManager
      mixedRequest gamma (by decide) (by decide)).1
      [{ Header := "X-Hub-Sig", Secret := "s3cr3t" }] { Header := "X-Token", Secret := "t0k3n" } []
      (by decide) (by decide) (by decide) (by decide)⟩

/-- C15, as stated, fails: a request whose update succeeds gets status 200 and
the run logs the entry for the received request only; no entry records the
dispatch. -/
theorem success_logs_nothing :
    ((sampleEndpoint "beta").ServeHTTP sampleManager goodRequest).statuses = [200] ∧
      ((sampleEndpoint "beta").ServeHTTP sampleManager goodRequest).logs =
        [.log .debug "received update git repo request" [("repo_name", "beta")]] := by
  decide

/-- C15, amended: every run of an endpoint whose logger is set logs one entry
for the received request, followed by exactly one warning when the repository is
not registered, when the webhook check rejects the request and when update
fails, and by nothing when update succeeds. -/
theorem ServeHTTP_log_entries (m : Endpoint) (l : Logger) (manager : Manager) (r : Request)
    (hlog : m.logger = some l) :
    (manager.repos.lookup m.RepositoryName = none →
        (m.ServeHTTP manager r).logs =
          [.log .debug "received update git repo request" [("repo_name", m.RepositoryName)],
            .log .warn "repo not found" [("repo_name", m.RepositoryName)]]) ∧
      ∀ repo, manager.repos.lookup m.RepositoryName = some repo →
        ((repo.Config.Webhooks = [] ∨
            ((∃ wh ∈ repo.Config.Webhooks, presented r wh) ∧
              ∀ wh ∈ repo.Config.Webhooks, presented r wh →
                Header.Get r.Header wh.Header = wh.Secret)) →
          (repo.update = none →
            (m.ServeHTTP manager r).logs =
              [.log .debug "received update git repo request"
                [("repo_name", m.RepositoryName)]]) ∧
          ∀ err, repo.update = some err →
            (m.ServeHTTP manager r).logs =
              [.log .debug "received update git repo request" [("repo_name", m.RepositoryName)],
                .log .warn "failed updating repo"
                  [("repo_name", repo.Config.Name), ("error", err)]]) ∧
        (¬ (repo.Config.Webhooks = [] ∨
            ((∃ wh ∈ repo.Config.Webhooks, presented r wh) ∧
              ∀ wh ∈ repo.Config.Webhooks, presented r wh →
                Header.Get r.Header wh.Header = wh.Secret)) →
          ∃ fields, (m.ServeHTTP manager r).logs =
            [.log .debug "received update git repo request" [("repo_name", m.RepositoryName)],
              .log .warn "webhook authentication failed" fields]) := by
  constructor
  · intro hreg
    simp [ServeHTTP_unregistered m l hlog manager r hreg, Run.logs]
  · intro repo hreg
    simp only [← scanWebhooks_authorized_iff]
    constructor
    · intro hacc
      have hrun : m.ServeHTTP manager r =
          (m.dispatch repo (.made [])).after
            [.log .debug "received update git repo request"
              [("repo_name", m.RepositoryName)]] := by
        rcases hacc with h | h
        · exact ServeHTTP_open m l hlog manager r repo hreg h
        · exact ServeHTTP_authorized m l hlog manager r repo hreg h
      constructor
      · intro hu
        simp [hrun, dispatch_ok m repo hu, Run.after, Run.logs]
      · intro err hu
        simp [hrun, dispatch_err m l hlog repo err hu, Run.after, Run.logs]
    · intro hrej
      rw [not_or] at hrej
      rcases scanWebhooks_cases r repo.Config.Webhooks with h | h | ⟨wh, h⟩
      · exact absurd h hrej.2
      · exact ⟨[("repo_name", repo.Config.Name), ("error", "auth header not found")],
          by simp [ServeHTTP_not_found m l hlog manager r repo hreg hrej.1 h, Run.logs]⟩
      · exact ⟨[("repo_name", repo.Config.Name), ("webhook_header", wh.Header),
            ("error", "auth header value mismatch")],
          by simp [ServeHTTP_mismatch m l hlog manager r repo wh hreg h, Run.logs]⟩

/-- C15, amended, at the name `ghost`, which the sample registry does not hold. -/
theorem ServeHTTP_log_entries_witness :
    (sampleEndpoint "ghost").logger = some { id := 0 } ∧
      sampleManager.repos.lookup (sampleEndpoint "ghost").RepositoryName = none ∧
      ((sampleEndpoint "ghost").ServeHTTP sampleManager goodRequest).logs =
        [.log .debug "received update git repo request"
            [("repo_name", (sampleEndpoint "ghost").RepositoryName)],
          .log .warn "repo not found" [("repo_name", (sampleEndpoint "ghost").RepositoryName)]] :=
  ⟨by decide, by decide,
    (ServeHTTP_log_entries (sampleEndpoint "ghost") { id := 0 } sampleManager goodRequest
      (by decide)).1 (by decide)⟩

theorem scanWebhooks_authorized_perm (r : Request) (rules1 rules2 : List WebhookConfig)
    (hperm : rules1.Perm rules2) :
    scanWebhooks r rules1 false = .done true ↔ scanWebhooks r rules2 false = .done true := by
  rw [scanWebhooks_authorized_iff, scanWebhooks_authorized_iff]
  constructor
  · rintro ⟨⟨wh, hmem, hp⟩, hall⟩
    exact ⟨⟨wh, hperm.mem_iff.mp hmem, hp⟩, fun w hw => hall w (hperm.mem_iff.mpr hw)⟩
  · rintro ⟨⟨wh, hmem, hp⟩, hall⟩
    exact ⟨⟨wh, hperm.mem_iff.mpr hmem, hp⟩, fun w hw => hall w (hperm.mem_iff.mp hw)⟩

/-- When two repositories with the same name and the same update result agree on
whether their rule lists are empty and on whether the loop authorizes the
request, the two runs write the same statuses and make the same update calls. -/
theorem observe_same_decision (m : Endpoint) (manager1 manager2 : Manager) (r1 r2 : Request)
    (repo1 repo2 : Repository)
    (hreg1 : manager1.repos.lookup m.RepositoryName = some repo1)
    (hreg2 : manager2.repos.lookup m.RepositoryName = some repo2)
    (hname : repo1.Config.Name = repo2.Config.Name) (hupd : repo1.update = repo2.update)
    (hnil : repo1.Config.Webhooks = [] ↔ repo2.Config.Webhooks = [])
    (hscan : scanWebhooks r1 repo1.Config.Webhooks false = .done true ↔
      scanWebhooks r2 repo2.Config.Webhooks false = .done true) :
    (m.ServeHTTP manager1 r1).statuses = (m.ServeHTTP manager2 r2).statuses ∧
      (m.ServeHTTP manager1 r1).updates = (m.ServeHTTP manager2 r2).updates := by
  cases hlog : m.logger with
  | none => simp [ServeHTTP_nil_logger m hlog]
  | some l =>
    by_cases hacc : repo1.Config.Webhooks = [] ∨
        scanWebhooks r1 repo1.Config.Webhooks false = .done true
    · have hacc2 : repo2.Config.Webhooks = [] ∨
          scanWebhooks r2 repo2.Config.Webhooks false = .done true :=
        hacc.imp hnil.mp hscan.mp
      have h1 := observe_accept m l hlog manager1 r1 repo1 hreg1 hacc
      have h2 := observe_accept m l hlog manager2 r2 repo2 hreg2 hacc2
      rw [h1.1, h1.2, h2.1, h2.2, hname, hupd]
      exact ⟨rfl, rfl⟩
    · rw [not_or] at hacc
      have h1 := observe_reject m l hlog manager1 r1 repo1 hreg1 hacc.1 hacc.2
      have h2 := observe_reject m l hlog manager2 r2 repo2 hreg2
        (fun h => hacc.1 (hnil.mpr h)) (fun h => hacc.2 (hscan.mpr h))
      rw [h1.1, h1.2, h2.1, h2.2]
      exact ⟨rfl, rfl⟩

/-- C18: when the rule list of the repository is replaced by a permutation of
it, the name and the update result kept, the run of `ServeHTTP` on the same
request writes the same statuses and makes the same calls of update. -/
theorem ServeHTTP_rule_order (m : Endpoint) (manager1 manager2 : Manager) (r : Request)
    (repo1 repo2 : Repository)
    (hreg1 : manager1.repos.lookup m.RepositoryName = some repo1)
    (hreg2 : manager2.repos.lookup m.RepositoryName = some repo2)
    (hname : repo1.Config.Name = repo2.Config.Name) (hupd : repo1.update = repo2.update)
    (hperm : repo1.Config.Webhooks.Perm repo2.Config.Webhooks) :
    (m.ServeHTTP manager1 r).statuses = (m.ServeHTTP manager2 r).statuses ∧
      (m.ServeHTTP manager1 r).updates = (m.ServeHTTP manager2 r).updates := by
  apply observe_same_decision m manager1 manager2 r r repo1 repo2 hreg1 hreg2 hname hupd
  · constructor
    · intro h
      rw [h] at hperm
      exact List.Perm.eq_nil (List.Perm.symm hperm)
    · intro h
      rw [h] at hperm
      exact List.Perm.eq_nil hperm
  · exact scanWebhooks_authorized_perm r _ _ hperm

/-- C18 at `gamma` and `gamma` with its two rules swapped, on a request whose
`X-Token` is wrong. -/
theorem ServeHTTP_rule_order_witness :
    sampleManager.repos.lookup (sampleEndpoint "gamma").RepositoryName = some gamma ∧
      swappedManager.repos.lookup (sampleEndpoint "gamma").RepositoryName = some gammaSwapped ∧
      gamma.Config.Webhooks.Perm gammaSwapped.Config.Webhooks ∧
      ((sampleEndpoint "gamma").ServeHTTP sampleManager mixedRequest).statuses =
        ((sampleEndpoint "gamma").ServeHTTP swappedManager mixedRequest).statuses ∧
      ((sampleEndpoint "gamma").ServeHTTP sampleManager mixedRequest).updates =
        ((sampleEndpoint "gamma").ServeHTTP swappedManager mixedRequest).updates :=
  ⟨by decide, by decide, List.Perm.swap _ _ _,
    ServeHTTP_rule_order (sampleEndpoint "gamma") sampleManager swappedManager mixedRequest
      gamma gammaSwapped (by decide) (by decide) (by decide) (by decide) (List.Perm.swap _ _ _)⟩

/-- C19: a rule with an empty secret never authorizes.  A request carrying its
header with a non-empty value gets 401 and no update; a rule whose header has an
empty value on the request is skipped by the loop, as a rule whose header is
absent is; so when the repository has at least one rule and every rule has an
empty secret, every request gets 401 and update is not invoked. -/
theorem ServeHTTP_empty_secret (m : Endpoint) (l : Logger) (manager : Manager) (r : Request)
    (repo : Repository) (hlog : m.logger = some l)
    (hreg : manager.repos.lookup m.RepositoryName = some repo) :
    (∀ pre wh post, repo.Config.Webhooks = pre ++ wh :: post → wh.Secret = "" →
        Header.Get r.Header wh.Header ≠ "" →
        (m.ServeHTTP manager r).statuses = [401] ∧ (m.ServeHTTP manager r).updates = []) ∧
      (∀ wh rest authorized, Header.Get r.Header wh.Header = "" →
        scanWebhooks r (wh :: rest) authorized = scanWebhooks r rest authorized) ∧
      (repo.Config.Webhooks ≠ [] → (∀ wh ∈ repo.Config.Webhooks, wh.Secret = "") →
        (m.ServeHTTP manager r).statuses = [401] ∧ (m.ServeHTTP manager r).updates = []) := by
  refine ⟨?_, ?_, ?_⟩
  · intro pre wh post hrules hsecret hp
    apply observe_reject m l hlog manager r repo hreg (by simp [hrules])
    rw [ne_eq, scanWebhooks_authorized_iff]
    rintro ⟨_, hall⟩
    have := hall wh (by simp [hrules]) hp
    rw [hsecret] at this
    exact hp this
  · intro wh rest authorized h
    rw [scanWebhooks, if_pos h]
  · intro hne hall
    apply observe_reject m l hlog manager r repo hreg hne
    rw [ne_eq, scanWebhooks_authorized_iff]
    rintro ⟨⟨wh, hmem, hp⟩, hright⟩
    have := hright wh hmem hp
    rw [hall wh hmem] at this
    exact hp this

/-- C19 at a repository whose only rule has an empty secret. -/
theorem ServeHTTP_empty_secret_witness :
    (sampleEndpoint "delta").logger = some { id := 0 } ∧
      deltaManager.repos.lookup (sampleEndpoint "delta").RepositoryName = some delta ∧
      delta.Config.Webhooks ≠ [] ∧ (∀ wh ∈ delta.Config.Webhooks, wh.Secret = "") ∧
      ((sampleEndpoint "delta").ServeHTTP deltaManager goodRequest).statuses = [401] ∧
      ((sampleEndpoint "delta").ServeHTTP deltaManager goodRequest).updates = [] :=
  ⟨by decide, by decide, by decide, by decide,
    (ServeHTTP_empty_secret (sampleEndpoint "delta") { id := 0 } deltaManager goodRequest delta
      (by decide) (by decide)).2.2 (by decide) (by decide)⟩

/-! ## Letter case of the configured header names -/

theorem validHeaderFieldByte_of_capital (c : Char) (h1 : 65 ≤ c.toNat) (h2 : c.toNat ≤ 90) :
    validHeaderFieldByte c = true := by
  simp [validHeaderFieldByte, h1, h2]

theorem validHeaderFieldByte_of_small (c : Char) (h1 : 97 ≤ c.toNat) (h2 : c.toNat ≤ 122) :
    validHeaderFieldByte c = true := by
  simp [validHeaderFieldByte, h1, h2]

theorem sameLetter_valid (a b : Char) (h : sameLetter a b) :
    validHeaderFieldByte a = validHeaderFieldByte b := by
  rcases h with h | ⟨h1, h2, h3⟩ | ⟨h1, h2, h3⟩
  · rw [h]
  · rw [validHeaderFieldByte_of_capital a h1 h2,
      validHeaderFieldByte_of_small b (by omega) (by omega)]
  · rw [validHeaderFieldByte_of_capital b h1 h2,
      validHeaderFieldByte_of_small a (by omega) (by omega)]

theorem sameLetter_all_valid (l1 l2 : List Char) (h : List.Forall₂ sameLetter l1 l2) :
    l1.all validHeaderFieldByte = l2.all validHeaderFieldByte := by
  induction h with
  | nil => rfl
  | cons hab _ ih => simp only [List.all_cons, sameLetter_valid _ _ hab, ih]

theorem canonicalizeLoop_sameLetter (l1 l2 : List Char) (h : List.Forall₂ sameLetter l1 l2)
    (upper : Bool) : canonicalizeLoop upper l1 = canonicalizeLoop upper l2 := by
  induction h generalizing upper with
  | nil => rfl
  | @cons a b t1 t2 hab _ ih =>
    unfold canonicalizeLoop
    have hstep :
        (if upper && 97 ≤ a.toNat && a.toNat ≤ 122 then Char.ofNat (a.toNat - 32)
          else if !upper && 65 ≤ a.toNat && a.toNat ≤ 90 then Char.ofNat (a.toNat + 32)
          else a) =
        (if upper && 97 ≤ b.toNat && b.toNat ≤ 122 then Char.ofNat (b.toNat - 32)
          else if !upper && 65 ≤ b.toNat && b.toNat ≤ 90 then Char.ofNat (b.toNat + 32)
          else b) := by
      rcases hab with h | ⟨h1, h2, h3⟩ | ⟨h1, h2, h3⟩
      · rw [h]
      · have ha : ¬ (97 ≤ a.toNat) := by omega
        have hb : ¬ (b.toNat ≤ 90) := by omega
        have hb1 : 97 ≤ b.toNat := by omega
        have hb2 : b.toNat ≤ 122 := by omega
        have e1 : Char.ofNat (b.toNat - 32) = a := by
          rw [h3, Nat.add_sub_cancel, Char.ofNat_toNat]
        have e2 : Char.ofNat (a.toNat + 32) = b := by
          rw [← h3, Char.ofNat_toNat]
        cases upper <;> simp [ha, hb, hb1, hb2, h1, h2, e1, e2]
      · have hb : ¬ (97 ≤ b.toNat) := by omega
        have ha : ¬ (a.toNat ≤ 90) := by omega
        have ha1 : 97 ≤ a.toNat := by omega
        have ha2 : a.toNat ≤ 122 := by omega
        have e1 : Char.ofNat (a.toNat - 32) = b := by
          rw [h3, Nat.add_sub_cancel, Char.ofNat_toNat]
        have e2 : Char.ofNat (b.toNat + 32) = a := by
          rw [← h3, Char.ofNat_toNat]
        cases upper <;> simp [ha, hb, ha1, ha2, h1, h2, e1, e2]
    simp only [hstep, ih]

theorem lookup_invalid_key (h : List (String × List String)) (key : String)
    (hkeys : ∀ kv ∈ h, kv.1.data.all validHeaderFieldByte = true)
    (hkey : ¬ key.data.all validHeaderFieldByte = true) : h.lookup key = none := by
  rw [List.lookup_eq_none_iff]
  intro kv hmem
  have hv := hkeys kv hmem
  simp only [bne_iff_ne, ne_eq]
  intro heq
  rw [heq] at hkey
  exact hkey hv

theorem Get_caseVariant (r : Request) (hkeys : validHeaderKeys r) (h1 h2 : String)
    (hcase : caseVariant h1 h2) : Header.Get r.Header h1 = Header.Get r.Header h2 := by
  have hall := sameLetter_all_valid _ _ hcase
  by_cases hv : h1.data.all validHeaderFieldByte = true
  · have hv2 : h2.data.all validHeaderFieldByte = true := by rw [← hall]; exact hv
    simp only [Header.Get, CanonicalMIMEHeaderKey, hv, hv2, if_true,
      canonicalizeLoop_sameLetter _ _ hcase true]
  · have hv2 : ¬ h2.data.all validHeaderFieldByte = true := by rw [← hall]; exact hv
    have hc1 : CanonicalMIMEHeaderKey h1 = h1 := by simp [CanonicalMIMEHeaderKey, hv]
    have hc2 : CanonicalMIMEHeaderKey h2 = h2 := by simp [CanonicalMIMEHeaderKey, hv2]
    simp only [Header.Get, hc1, hc2, lookup_invalid_key r.Header h1 hkeys hv,
      lookup_invalid_key r.Header h2 hkeys hv2]

theorem scanWebhooks_caseVariant (r : Request) (hkeys : validHeaderKeys r)
    (rules1 rules2 : List WebhookConfig)
    (h : List.Forall₂
      (fun w1 w2 : WebhookConfig => caseVariant w1.Header w2.Header ∧ w1.Secret = w2.Secret)
      rules1 rules2)
    (a b : Bool) :
    scanWebhooks r rules1 a = .done b ↔ scanWebhooks r rules2 a = .done b := by
  induction h generalizing a with
  | nil => exact Iff.rfl
  | @cons w1 w2 t1 t2 hw _ ih =>
    have hget := Get_caseVariant r hkeys w1.Header w2.Header hw.1
    rw [scanWebhooks, scanWebhooks, hget, hw.2]
    by_cases h1 : Header.Get r.Header w2.Header = ""
    · rw [if_pos h1, if_pos h1]
      exact ih a
    · rw [if_neg h1, if_neg h1]
      by_cases h2 : Header.Get r.Header w2.Header = w2.Secret
      · rw [if_neg (not_not.mpr h2), if_neg (not_not.mpr h2)]
        exact ih true
      · rw [if_pos h2, if_pos h2]
        simp

theorem caseVariant_rules (pre post : List WebhookConfig) (wh : WebhookConfig) (name : String)
    (hcase : caseVariant wh.Header name) :
    List.Forall₂
      (fun w1 w2 : WebhookConfig => caseVariant w1.Header w2.Header ∧ w1.Secret = w2.Secret)
      (pre ++ wh :: post) (pre ++ { Header := name, Secret := wh.Secret } :: post) := by
  have hrefl : ∀ w : WebhookConfig, caseVariant w.Header w.Header ∧ w.Secret = w.Secret :=
    fun w => ⟨List.forall₂_same.mpr fun _ _ => Or.inl rfl, rfl⟩
  induction pre with
  | nil => exact List.Forall₂.cons ⟨hcase, rfl⟩ (List.forall₂_same.mpr fun w _ => hrefl w)
  | cons w rest ih => exact List.Forall₂.cons (hrefl w) ih

/-- C16: for a request whose header keys are valid header field names (as keys
in canonical HTTP form are), replacing the header name of one rule by the same
name in another letter case, everything else kept, does not change the statuses
`ServeHTTP` writes, nor its calls of update. -/
theorem ServeHTTP_header_name_case (m : Endpoint) (manager1 manager2 : Manager) (r : Request)
    (repo1 repo2 : Repository) (hkeys : validHeaderKeys r)
    (hreg1 : manager1.repos.lookup m.RepositoryName = some repo1)
    (hreg2 : manager2.repos.lookup m.RepositoryName = some repo2)
    (hname : repo1.Config.Name = repo2.Config.Name) (hupd : repo1.update = repo2.update)
    (pre post : List WebhookConfig) (wh : WebhookConfig) (name : String)
    (hrules1 : repo1.Config.Webhooks = pre ++ wh :: post)
    (hrules2 : repo2.Config.Webhooks = pre ++ { Header := name, Secret := wh.Secret } :: post)
    (hcase : caseVariant wh.Header name) :
    (m.ServeHTTP manager1 r).statuses = (m.ServeHTTP manager2 r).statuses ∧
      (m.ServeHTTP manager1 r).updates = (m.ServeHTTP manager2 r).updates := by
  apply observe_same_decision m manager1 manager2 r r repo1 repo2 hreg1 hreg2 hname hupd
  · simp [hrules1, hrules2]
  · rw [hrules1, hrules2]
    exact scanWebhooks_caseVariant r hkeys _ _ (caseVariant_rules pre post wh name hcase) false
      true

/-- C16 at `beta` and `beta` with its header name in small letters, on a request
carrying the right secret. -/
theorem ServeHTTP_header_name_case_witness :
    validHeaderKeys goodRequest ∧
      sampleManager.repos.lookup (sampleEndpoint "beta").RepositoryName = some beta ∧
      smallManager.repos.lookup (sampleEndpoint "beta").RepositoryName = some betaSmall ∧
      caseVariant "X-Hub-Sig" "x-hub-sig" ∧
      ((sampleEndpoint "beta").ServeHTTP sampleManager goodRequest).statuses =
        ((sampleEndpoint "beta").ServeHTTP smallManager goodRequest).statuses ∧
      ((sampleEndpoint "beta").ServeHTTP sampleManager goodRequest).updates =
        ((sampleEndpoint "beta").ServeHTTP smallManager goodRequest).updates :=
  ⟨by decide, by decide, by decide, by decide,
    ServeHTTP_header_name_case (sampleEndpoint "beta") sampleManager smallManager goodRequest
      beta betaSmall (by decide) (by decide) (by decide) (by decide) (by decide) [] []
      { Header := "X-Hub-Sig", Secret := "s3cr3t" } "x-hub-sig" (by decide) (by decide)
      (by decide)⟩

end CaddyGit
